import Mathlib

/-! fabtcg-bot: allowlist, dispatch middleware, handlers and the FabDB client

A shallow embedding of `telegram/bot.go`, `fabdb/client.go` and `fabdb/fabdb.go`.

* Go `int` is 64 bit on the supported platforms; identifiers and status codes are
  `Int`, lengths and indices are `Nat`. No arithmetic on them can overflow here
  (the only sum is `i + j` of two slice indices inside `sort.Search`).
* Calls on the collaborators of the bot (metrics sink, logger, transport, card
  source) are recorded, in program order, in a list of effects.
* Pointers are never nil in the model: a message has a sender and a chat.
-/

namespace Fabtcg

/-! ## Go standard library: package `sort` -/

/-- The loop of Go's `sort.Search`: `for i < j { h := int(uint(i+j) >> 1);
if !f(h) { i = h + 1 } else { j = h } }; return i`.  The first argument bounds the
number of iterations; `j - i` iterations always suffice (`searchLoop_fuel`,
`searchLoop_spec`). -/
def searchLoop (f : Nat → Bool) : Nat → Nat → Nat → Nat
  | 0, i, _ => i
  | fuel + 1, i, j =>
    if i < j then
      let h := (i + j) / 2
      if !f h then searchLoop f fuel (h + 1) j else searchLoop f fuel i h
    else i

/-- Go's `sort.Search(n, f)`: `i, j := 0, n` and then the loop. -/
def Search (n : Nat) (f : Nat → Bool) : Nat :=
  searchLoop f n 0 n

/-- Go's `sort.SearchInts(a, x)`: `Search(len(a), func(i int) bool { return a[i] >= x })`. -/
def SearchInts (a : List Int) (x : Int) : Nat :=
  Search a.length (fun i => decide (a.getD i 0 ≥ x))

/-- Go's `sort.Ints`: sorts a slice of ints in increasing order. -/
def Ints (a : List Int) : List Int :=
  a.insertionSort (· ≤ ·)

/-! ## Errors -/

/-- The error type of `fabdb/client.go`: an HTTP status code and a message. -/
structure APIError where
  StatusCode : Int
  message : String
  deriving DecidableEq, Repr

/-- A Go `error` value: built by `fmt.Errorf`, an `APIError`, or an error handed
back by a collaborator (transport, HTTP client, JSON decoder). -/
inductive GoError where
  | errorf (msg : String)
  | api (e : APIError)
  | external (msg : String)
  deriving DecidableEq, Repr

/-! ## Data model -/

/-- The fields of `fabdb.Card` that the bot reads (`models.go`). -/
structure Card where
  Identifier : String
  Name : String
  Keywords : List String
  Text : String
  Rarity : String
  Image : String
  SideboardTotal : Int
  deriving DecidableEq, Repr

/-- The type `telebot.User`. -/
structure User where
  ID : Int
  FirstName : String
  Username : String
  IsBot : Bool
  deriving DecidableEq, Repr

/-- The type `telebot.Chat`; `Type_` is its field `Type`, the chat type string. -/
structure Chat where
  ID : Int
  Type_ : String
  deriving DecidableEq, Repr

/-- The type `telebot.Message`; `Service` is the value of `m.IsService()`. -/
structure Message where
  Sender : User
  Chat : Chat
  Text : String
  Service : Bool
  deriving DecidableEq, Repr

/-- The constant `telebot.ChatPrivate`. -/
def ChatPrivate : String := "private"

/-- The method `Message.Private` of telebot: `m.Chat.Type == ChatPrivate`. -/
def Message.Private (m : Message) : Bool :=
  m.Chat.Type_ == ChatPrivate

/-- The method `Message.IsService` of telebot, kept abstract as a field. -/
def Message.IsService (m : Message) : Bool :=
  m.Service

/-- The type `telebot.Query` (an inline query). -/
structure Query where
  ID : String
  From : User
  Text : String
  deriving DecidableEq, Repr

/-- The type `telebot.PhotoResult` with the fields the bot sets; `ID` is the field
written by `SetResultID`. -/
structure PhotoResult where
  ID : String
  URL : String
  Title : String
  Description : String
  ThumbURL : String
  deriving DecidableEq, Repr

/-- The type `telebot.QueryResponse` with the fields the bot sets. -/
structure QueryResponse where
  Results : List PhotoResult
  CacheTime : Int
  deriving DecidableEq, Repr

/-- A `telebot.Recipient`: the bot sends to a user or to a chat. -/
inductive Recipient where
  | user (u : User)
  | chat (c : Chat)
  deriving DecidableEq, Repr

/-- What a handler does to its collaborators, in program order. -/
inductive Action where
  | Log (lvl : String) (msg : String)
  | ListCards (query : String)
  | Send (recipient : Recipient) (what : String)
  | Answer (query : Query) (resp : QueryResponse)
  deriving DecidableEq, Repr

/-- One run of a handler: its actions and the error it returns (`none` is nil). -/
structure HandlerRun where
  actions : List Action
  err : Option GoError
  deriving DecidableEq, Repr

/-- What a middleware callback does, in program order: calls on the metrics sink,
log lines, and the call of the wrapped handler together with that run. -/
inductive Effect where
  | IncTelegramCommands (cmd : String)
  | IncTelegramEventsIncoming (eventType : String)
  | IncTelegramEventsOutgoing (eventType : String)
  | Log (lvl : String) (msg : String)
  | Next (run : HandlerRun)
  deriving DecidableEq, Repr

/-- The interface `Cards` of `bot.go`. -/
structure Cards where
  ListCards : String → List Card × Option GoError
  GetCard : String → Card × Option GoError

/-- The interface `Telebot` of `bot.go`: the error results of `Send` and `Answer`. -/
structure Telebot where
  Send : Recipient → String → Option GoError
  Answer : Query → QueryResponse → Option GoError

/-- The struct `Bot` of `bot.go`; logger and metrics sink are the effect list. -/
structure Bot where
  revision : String
  cards : Cards
  telegram : Telebot
  allowlist : List Int

/-- The type `BotOption`: `func(b *Bot) error`. -/
abbrev BotOption := Bot → Except GoError Bot

/-- The loop `for _, opt := range opts` of `NewBotWithTelegram`. -/
def applyOptions : List BotOption → Bot → Except GoError Bot
  | [], b => .ok b
  | opt :: opts, b =>
    match opt b with
    | .error err => .error err
    | .ok b1 => applyOptions opts b1

/-- The constructor `NewBotWithTelegram` (the metrics sink is the effect list). -/
def NewBotWithTelegram (botState : Cards) (bot : Telebot) (opts : List BotOption) :
    Except GoError Bot :=
  applyOptions opts { revision := "", cards := botState, telegram := bot, allowlist := [] }

/-- The option `WithAllowlist`: append the ids, then `sort.Ints`. -/
def WithAllowlist (ids : List Int) : BotOption := fun b =>
  .ok { b with allowlist := Ints (b.allowlist ++ ids) }

/-- The option `WithRevision`. -/
def WithRevision (s : String) : BotOption := fun b =>
  .ok { b with revision := s }

/-- The method `Bot.isOnAllowlist`. -/
def Bot.isOnAllowlist (b : Bot) (id : Int) : Bool :=
  if b.allowlist.length = 0 then true
  else
    let i := SearchInts b.allowlist id
    decide (i < b.allowlist.length) && decide (b.allowlist.getD i 0 = id)

/-! ## Go standard library: package `strings`, `len`, `strconv` -/

/-- Go's `len(s)` on a string: the number of bytes of its UTF-8 encoding. -/
def len (s : String) : Nat :=
  s.utf8ByteSize

/-- Go's `strings.Split(s, sep)` for a separator of one character, on the
characters of `s`: the pieces between the separators, always at least one. -/
def splitChars (sep : Char) : List Char → List (List Char)
  | [] => [[]]
  | c :: cs =>
    if c = sep then [] :: splitChars sep cs
    else
      match splitChars sep cs with
      | [] => [[c]]
      | w :: ws => (c :: w) :: ws

/-- Go's `strings.Split(s, " ")`. -/
def SplitSpace (s : String) : List String :=
  (splitChars ' ' s.data).map String.mk

/-- Go's `strconv.Itoa` on a slice index. -/
def Itoa (i : Nat) : String :=
  toString i

/-- Go's `fmt.Sprintf("%d", n)`: the decimal rendering of an int. -/
def fmtInt (n : Int) : String :=
  toString n

/-! ## `telegram/bot.go`: constants -/

/-- The constant `CmdStart`. -/
def CmdStart : String := "/start"

/-- The constant `CmdID`. -/
def CmdID : String := "/id"

/-- The constant `metrics.TelegramMessageEventType`. -/
def TelegramMessageEventType : String := "message"

/-- The constant `metrics.TelegramInlineQueryEventType`. -/
def TelegramInlineQueryEventType : String := "inline"

/-! ## `telegram/bot.go`: middleware -/

/-- The callback returned by `Bot.middleware(next)`, run on the message `m`: the
effects it has, in order.  The callback has no result. -/
def Bot.middleware (b : Bot) (next : Message → HandlerRun) (m : Message) : List Effect :=
  Effect.IncTelegramEventsIncoming TelegramMessageEventType ::
    (if m.IsService || m.Sender.IsBot then
      []
    else if !b.isOnAllowlist m.Sender.ID && m.Text != CmdID then
      [Effect.Log "info" "received message from forbidden sender"]
    else
      let command := (SplitSpace m.Text).headD ""
      let run := next m
      Effect.IncTelegramCommands command ::
      Effect.Log "debug" "received message" ::
      Effect.Next run ::
        (match run.err with
         | some _ => [Effect.Log "warn" "failed to handle bot command"]
         | none => [Effect.IncTelegramEventsOutgoing TelegramMessageEventType]))

/-- The callback returned by `Bot.queryMiddleware(next)`, run on the query `m`. -/
def Bot.queryMiddleware (b : Bot) (next : Query → HandlerRun) (m : Query) : List Effect :=
  Effect.IncTelegramEventsIncoming TelegramInlineQueryEventType ::
    (if m.From.IsBot || decide (len m.Text ≤ 3) then
      []
    else if !b.isOnAllowlist m.From.ID && m.Text != CmdID then
      [Effect.Log "info" "received message from forbidden sender"]
    else
      let run := next m
      Effect.Log "debug" "received message" ::
      Effect.Next run ::
        (match run.err with
         | some _ => [Effect.Log "warn" "failed to handle inline query"]
         | none => [Effect.IncTelegramEventsOutgoing TelegramInlineQueryEventType]))

/-! ## `telegram/bot.go`: handlers -/

/-- The constant `CmdHelp`. -/
def CmdHelp : String := "/help"

/-- The text `fmt.Sprintf(responseStart, name)`. -/
def responseStart (name : String) : String :=
  "Hi, " ++ name ++ "! 👋 Check out " ++ CmdHelp ++ " for further details.\n You can share card information from everywhere by simply typing @fabtcg_bot followed by a card query in your chat window.\nData is provided by https://fabdb.net."

/-- The handler `Bot.handleStart`. -/
def Bot.handleStart (b : Bot) (message : Message) : HandlerRun :=
  let what := responseStart message.Sender.FirstName
  { actions := [Action.Log "info" "user executed start command",
                Action.Send (Recipient.user message.Sender) what],
    err := b.telegram.Send (Recipient.user message.Sender) what }

/-- The handler `Bot.handleID`. -/
def Bot.handleID (b : Bot) (message : Message) : HandlerRun :=
  if message.Private then
    let what := "Your user id is " ++ fmtInt message.Sender.ID
    { actions := [Action.Log "info" "user executed id command",
                  Action.Send (Recipient.chat message.Chat) what],
      err := b.telegram.Send (Recipient.chat message.Chat) what }
  else
    { actions := [Action.Log "info" "user executed id command"], err := none }

/-- The loop of `Bot.handleOnQuery` from index `i` on: one `PhotoResult` per card,
with `SetResultID(strconv.Itoa(i))`. -/
def photoResults : List Card → Nat → List PhotoResult
  | [], _ => []
  | card :: cards, i =>
    { ID := Itoa i, URL := card.Image, Title := card.Name, Description := card.Text,
      ThumbURL := card.Image } :: photoResults cards (i + 1)

/-- The handler `Bot.handleOnQuery`. -/
def Bot.handleOnQuery (b : Bot) (q : Query) : HandlerRun :=
  match b.cards.ListCards q.Text with
  | (_, some err) =>
    { actions := [Action.ListCards q.Text, Action.Log "warn" "failed to query cards"],
      err := some err }
  | (cards, none) =>
    let resp : QueryResponse := { Results := photoResults cards 0, CacheTime := 60 }
    match b.telegram.Answer q resp with
    | some err =>
      { actions := [Action.ListCards q.Text, Action.Answer q resp,
                    Action.Log "warn" "failed to send query response"],
        err := some err }
    | none =>
      { actions := [Action.ListCards q.Text, Action.Answer q resp], err := none }

/-! ## Counting in effect lists -/

/-- How often the wrapped handler was called. -/
def handlerCalls (es : List Effect) : Nat :=
  es.countP (fun e => match e with | Effect.Next _ => true | _ => false)

/-- How often `IncTelegramCommands` was called (with any command name). -/
def commandIncs (es : List Effect) : Nat :=
  es.countP (fun e => match e with | Effect.IncTelegramCommands _ => true | _ => false)

/-- How often `IncTelegramEventsIncoming` was called (with any type). -/
def incomingIncs (es : List Effect) : Nat :=
  es.countP (fun e => match e with | Effect.IncTelegramEventsIncoming _ => true | _ => false)

/-- How often `IncTelegramEventsOutgoing` was called (with any type). -/
def outgoingIncs (es : List Effect) : Nat :=
  es.countP (fun e => match e with | Effect.IncTelegramEventsOutgoing _ => true | _ => false)

/-- The `Send` calls among the actions of a handler, in order. -/
def sends (as : List Action) : List (Recipient × String) :=
  as.filterMap (fun a => match a with | Action.Send r w => some (r, w) | _ => none)

/-- The `Answer` calls among the actions of a handler, in order. -/
def answers (as : List Action) : List (Query × QueryResponse) :=
  as.filterMap (fun a => match a with | Action.Answer q r => some (q, r) | _ => none)

/-- The `Send` calls of all handler runs inside a middleware effect list. -/
def sentBy (es : List Effect) : List (Recipient × String) :=
  es.flatMap (fun e => match e with | Effect.Next run => sends run.actions | _ => [])

/-! ## Go standard library: strings, HTTP and JSON as used by package `fabdb` -/

/-- Go's `strings.HasPrefix(s, prefix)`. -/
def HasPrefix (s pre : String) : Bool :=
  pre.data.isPrefixOf s.data

/-- An ASCII upper-case letter: `'A' <= c && c <= 'Z'`. -/
def isUpperASCII (c : Char) : Bool :=
  decide (65 ≤ c.toNat ∧ c.toNat ≤ 90)

/-- The ASCII step of `strings.ToLower`: `if 'A' <= c && c <= 'Z' { c += 'a' - 'A' }`. -/
def asciiLower (c : Char) : Char :=
  if 65 ≤ c.toNat ∧ c.toNat ≤ 90 then Char.ofNat (c.toNat + 32) else c

/-- Go's `unicode.ToLower(r)`: the ASCII case is computed, every other rune is
looked up in the Unicode case table `table`. -/
def unicodeToLower (table : Char → Char) (r : Char) : Char :=
  if r.toNat ≤ 127 then asciiLower r else table r

/-- Go's `strings.ToLower(s)`: an ASCII-only string is returned as it is when it
has no upper-case letter and is lowered byte by byte otherwise; any other string
is mapped rune by rune with `unicode.ToLower`. -/
def ToLower (table : Char → Char) (s : String) : String :=
  if s.data.all (fun c => decide (c.toNat < 128)) then
    if !s.data.any isUpperASCII then s else String.mk (s.data.map asciiLower)
  else String.mk (s.data.map (unicodeToLower table))

/-- An `http.Header`: keys with their lists of values. -/
abbrev Header := List (String × List String)

/-- The method `Header.Get`: the first value of the key, or the empty string. -/
def headerGet (h : Header) (key : String) : String :=
  match h.lookup key with
  | some (v :: _) => v
  | _ => ""

/-- The method `Header.Set`: the key gets the single value `value`.  The keys set
by this client are in canonical form already. -/
def headerSet (h : Header) (key value : String) : Header :=
  (key, [value]) :: h.filter (fun kv => kv.1 != key)

/-- An `http.Request` as built by `http.NewRequestWithContext`.  `URL` is the URL
string the request is built from; Go parses it into the URL of the request, and
`urlSplit` gives the parts of that URL. -/
structure Request where
  Method : String
  URL : String
  Header : Header
  Body : Option String
  deriving DecidableEq, Repr

/-- An `http.Response`; `Body` is what `ioutil.ReadAll(resp.Body)` gives. -/
structure Response where
  StatusCode : Int
  Header : Header
  Body : Except GoError String

/-- The type `FaBDBSearchResponse` of `models.go`: the field read by the client. -/
structure FaBDBSearchResponse where
  Data : List Card
  deriving DecidableEq, Repr

/-- The parts of the Go runtime and of the network that the client relies on.
`urlError` is the error of `http.NewRequestWithContext` for a URL (`none` when the
request can be built), `lowerTable` the Unicode case table behind
`unicode.ToLower`, the two `unmarshal` functions are `json.Unmarshal` into a
`FaBDBSearchResponse` and into a `Card`. -/
structure Env where
  urlError : String → Option GoError
  lowerTable : Char → Char
  unmarshalSearch : String → Except GoError FaBDBSearchResponse
  unmarshalCard : String → Except GoError Card

/-- The interface `HTTPClient`: the response and the error of `Do`.  The response
is read by the client only when the error is nil. -/
structure HTTPClient where
  Do : Request → Response × Option GoError

/-- The struct `Client` of `client.go`. -/
structure Client where
  apiEndpoint : String
  HTTPClient : HTTPClient

/-- The struct `FabDBClient` of `fabdb.go`. -/
structure FabDBClient where
  client : Client

/-- What a call into the client gives back: the requests handed to
`HTTPClient.Do` on the way, the returned value, and the returned error. -/
structure Outcome (α : Type) where
  sent : List Request
  value : α
  err : Option GoError

/-! ## `fabdb/client.go` -/

/-- The constant `apiEndpoint`. -/
def apiEndpoint : String := "https://api.fabdb.net"

/-- The constant `userAgentHeader`: `"fabtcg-bot/" + Version`. -/
def userAgentHeader : String := "fabtcg-bot/" ++ "1.0.0"

/-- The constant `contentTypeHeader`. -/
def contentTypeHeader : String := "application/json"

/-- The method `APIError.Error`. -/
def APIError.Error (a : APIError) : String :=
  if len a.message > 0 then a.message
  else "HTTP Requests failed with statuscode " ++ fmtInt a.StatusCode

/-- The method `Error()` of a Go error value. -/
def GoError.Error : GoError → String
  | .errorf msg => msg
  | .api e => e.Error
  | .external msg => msg

/-- The method `Client.prepRequest`. -/
def Client.prepRequest (req : Request) (headers : List (String × String)) : Request :=
  let h0 := headers.foldl (fun h kv => headerSet h kv.1 kv.2) req.Header
  let h1 := headerSet h0 "User-Agent" userAgentHeader
  { req with Header := headerSet h1 "Content-Type" contentTypeHeader }

/-- The method `Client.getErrorFromResponse`. -/
def Client.getErrorFromResponse (resp : Response) : APIError :=
  if !HasPrefix (headerGet resp.Header "Content-Type") "application/json" then
    { StatusCode := resp.StatusCode,
      message := "HTTP response with status code " ++ fmtInt resp.StatusCode ++
        " does not contain Content-Type: application/json" }
  else
    { StatusCode := resp.StatusCode,
      message := "HTTP response with status code " ++ fmtInt resp.StatusCode }

/-- The method `Client.checkResponse`. -/
def Client.checkResponse (resp : Response) (err : Option GoError) :
    Response × Option GoError :=
  match err with
  | some e => (resp, some (.errorf ("Error calling the API endpoint: " ++ e.Error)))
  | none =>
    if resp.StatusCode < 200 ∨ resp.StatusCode > 299 then
      (resp, some (.api (Client.getErrorFromResponse resp)))
    else (resp, none)

/-- The method `Client.doWithEndpoint`; a nil response is `none`.  The request
records the URL string handed to `http.NewRequestWithContext`. -/
def Client.doWithEndpoint (env : Env) (c : Client) (endpoint method path : String)
    (body : Option String) (headers : List (String × String)) :
    Outcome (Option Response) :=
  match env.urlError (endpoint ++ path) with
  | some err =>
    { sent := [], value := none,
      err := some (.errorf ("failed to build request: " ++ err.Error)) }
  | none =>
    let req := Client.prepRequest
      { Method := method, URL := endpoint ++ path, Header := [], Body := body } headers
    let r := c.HTTPClient.Do req
    let checked := Client.checkResponse r.1 r.2
    { sent := [req], value := some checked.1, err := checked.2 }

/-- The method `Client.do`. -/
def Client.do_ (env : Env) (c : Client) (method path : String) (body : Option String)
    (headers : List (String × String)) : Outcome (Option Response) :=
  Client.doWithEndpoint env c c.apiEndpoint method path body headers

/-- The method `Client.get`; `http.MethodGet` is `"GET"`. -/
def Client.get (env : Env) (c : Client) (path : String) : Outcome (Option Response) :=
  Client.do_ env c "GET" path none []

/-- The method `Client.decodeJSON`, for the payload type decoded by `unmarshal`. -/
def Client.decodeJSON {α : Type} (unmarshal : String → Except GoError α) (resp : Response) :
    Except GoError α :=
  match resp.Body with
  | .error err => .error (.errorf ("failed to read response body: " ++ err.Error))
  | .ok body => unmarshal body

/-! ## `fabdb/fabdb.go` -/

/-- The zero value `Card{}`. -/
def Card.zero : Card :=
  { Identifier := "", Name := "", Keywords := [], Text := "", Rarity := "", Image := "",
    SideboardTotal := 0 }

/-- The method `FabDBClient.ListCards`.  A nil slice and `[]Card{}` are both the
empty list. -/
def FabDBClient.ListCards (env : Env) (c : FabDBClient) (query : String) :
    Outcome (List Card) :=
  let r := Client.get env c.client
    ("/cards?per_page=30&keywords=" ++ query ++ "&page=1&use-case=browse")
  match r.err, r.value with
  | some err, _ => { sent := r.sent, value := [], err := some err }
  | none, none => { sent := r.sent, value := [], err := none }
  | none, some resp =>
    match Client.decodeJSON env.unmarshalSearch resp with
    | .error err => { sent := r.sent, value := [], err := some err }
    | .ok result =>
      if result.Data.length ≤ 0 then
        { sent := r.sent, value := [],
          err := some (.errorf "JSON response does not have any card fields") }
      else { sent := r.sent, value := result.Data, err := none }

/-- The method `FabDBClient.GetCard`. -/
def FabDBClient.GetCard (env : Env) (c : FabDBClient) (identifier : String) :
    Outcome Card :=
  let r := Client.get env c.client ("/cards/" ++ ToLower env.lowerTable identifier)
  match r.err, r.value with
  | some err, _ => { sent := r.sent, value := Card.zero, err := some err }
  | none, none => { sent := r.sent, value := Card.zero, err := none }
  | none, some resp =>
    match Client.decodeJSON env.unmarshalCard resp with
    | .error err => { sent := r.sent, value := Card.zero, err := some err }
    | .ok result => { sent := r.sent, value := result, err := none }

/-! ## Go standard library: how `net/url` splits a URL string -/

/-- Go's `strings.Cut(s, sep)` for a separator of one character: the text before
the first separator, the text after it, and whether there is one. -/
def cutChar (sep : Char) : List Char → List Char × List Char × Bool
  | [] => ([], [], false)
  | c :: cs =>
    if c = sep then ([], cs, true)
    else ((c :: (cutChar sep cs).1), (cutChar sep cs).2.1, (cutChar sep cs).2.2)

/-- The test `'a' <= c && c <= 'z' || 'A' <= c && c <= 'Z'` of `getScheme`. -/
def isSchemeLetter (c : Char) : Bool :=
  decide ((97 ≤ c.toNat ∧ c.toNat ≤ 122) ∨ (65 ≤ c.toNat ∧ c.toNat ≤ 90))

/-- The test `'0' <= c && c <= '9' || c == '+' || c == '-' || c == '.'` of
`getScheme`. -/
def isSchemeOther (c : Char) : Bool :=
  decide ((48 ≤ c.toNat ∧ c.toNat ≤ 57) ∨ c = '+' ∨ c = '-' ∨ c = '.')

/-- The loop of `getScheme` in `net/url` at index `i`, with the text from `i` on:
the scheme and the text behind its colon, `none` for the error `missing protocol
scheme`. -/
def getSchemeLoop (rawURL : List Char) : Nat → List Char → Option (List Char × List Char)
  | _, [] => some ([], rawURL)
  | i, c :: cs =>
    if isSchemeLetter c then getSchemeLoop rawURL (i + 1) cs
    else if isSchemeOther c then
      if i = 0 then some ([], rawURL) else getSchemeLoop rawURL (i + 1) cs
    else if c = ':' then
      if i = 0 then none else some (rawURL.take i, cs)
    else some ([], rawURL)

/-- Go's `shouldEscape(c, encodePath)` of `net/url`: letters, digits, the marks
`-_.~` and the reserved characters `$&+,/:;=@` stand for themselves in a path;
`?` and everything else is escaped.  Go tests bytes; a character outside ASCII
consists of bytes that are escaped. -/
def shouldEscapePath (c : Char) : Bool :=
  if (97 ≤ c.toNat ∧ c.toNat ≤ 122) ∨ (65 ≤ c.toNat ∧ c.toNat ≤ 90) ∨
      (48 ≤ c.toNat ∧ c.toNat ≤ 57) then false
  else if c = '-' ∨ c = '_' ∨ c = '.' ∨ c = '~' then false
  else if c = '$' ∨ c = '&' ∨ c = '+' ∨ c = ',' ∨ c = '/' ∨ c = ':' ∨ c = ';' ∨ c = '=' ∨
      c = '?' ∨ c = '@' then decide (c = '?')
  else true

/-- The parts into which `url.Parse` splits a URL string, each as it is written:
`Authority` is the text that Go parses further into user and host, `Path` the
text that Go percent-decodes into `URL.Path` and that is escaped again when the
request is written.  For a path whose characters all have `shouldEscapePath`
false, the written path, `URL.Path` and the path on the request line are one and
the same string. -/
structure ParsedURL where
  Scheme : String
  Opaque : String
  Authority : String
  Path : String
  ForceQuery : Bool
  RawQuery : String
  Fragment : String
  deriving DecidableEq, Repr

/-- The splitting steps of Go's `url.Parse`, in its order: cut off the fragment at
the first `#`, take the scheme, cut off the query at the first `?`, then the
authority behind `//` up to the next `/`; what is left is the path.  `none` stands
for the errors of these steps.  The checks of `url.Parse` on the characters of the
parts (control characters, host, percent escapes) are not part of this function:
whether a request can be built is `Env.urlError`. -/
def urlSplit (rawURL : String) : Option ParsedURL :=
  let u := (cutChar '#' rawURL.data).1
  let frag := (cutChar '#' rawURL.data).2.1
  if u = ['*'] then
    some { Scheme := "", Opaque := "", Authority := "", Path := "*", ForceQuery := false,
           RawQuery := "", Fragment := String.mk frag }
  else
    match getSchemeLoop u 0 u with
    | none => none
    | some (scheme, afterScheme) =>
      let force := decide (afterScheme.getLast? = some '?' ∧ afterScheme.count '?' = 1)
      let rest := if force then afterScheme.dropLast else (cutChar '?' afterScheme).1
      let query := if force then [] else (cutChar '?' afterScheme).2.1
      let lower := String.mk (scheme.map asciiLower)
      if !("/".data.isPrefixOf rest) && !scheme.isEmpty then
        some { Scheme := lower, Opaque := String.mk rest, Authority := "", Path := "",
               ForceQuery := force, RawQuery := String.mk query, Fragment := String.mk frag }
      else if !("/".data.isPrefixOf rest) && (cutChar '/' rest).1.contains ':' then
        none
      else if (!scheme.isEmpty || !("///".data.isPrefixOf rest)) && "//".data.isPrefixOf rest then
        let authority := (cutChar '/' (rest.drop 2)).1
        let path := if (cutChar '/' (rest.drop 2)).2.2 then '/' :: (cutChar '/' (rest.drop 2)).2.1
                    else []
        some { Scheme := lower, Opaque := "", Authority := String.mk authority,
               Path := String.mk path, ForceQuery := force, RawQuery := String.mk query,
               Fragment := String.mk frag }
      else
        some { Scheme := lower, Opaque := "", Authority := "", Path := String.mk rest,
               ForceQuery := force, RawQuery := String.mk query, Fragment := String.mk frag }

/-- The path, as written, of the URL from which a request is built. -/
def Request.urlPath (req : Request) : Option String :=
  (urlSplit req.URL).map (fun u => u.Path)

/-! ## Concrete collaborators and inputs -/

/-- A transport whose `Send` and `Answer` always succeed. -/
def quietTelebot : Telebot :=
  { Send := fun _ _ => none, Answer := fun _ _ => none }

/-- Two cards as a card source may return them. -/
def twoCards : List Card :=
  [{ Card.zero with Identifier := "WTR001", Name := "Heart of Fyendal", Text := "gain 1 life",
                    Image := "https://img/WTR001.png" },
   { Card.zero with Identifier := "WTR002", Name := "Rhinar", Text := "intimidate",
                    Image := "https://img/WTR002.png" }]

/-- A card source that finds the two cards for every query. -/
def twoCardSource : Cards :=
  { ListCards := fun _ => (twoCards, none), GetCard := fun _ => (Card.zero, none) }

/-- A bot whose allowlist was given as 5, 1, 3. -/
def guardedBot : Bot :=
  { revision := "", cards := twoCardSource, telegram := quietTelebot, allowlist := Ints [5, 1, 3] }

/-- A user who is not on the allowlist of `guardedBot`. -/
def stranger : User :=
  { ID := 2, FirstName := "Ira", Username := "ira", IsBot := false }

/-- The stranger sends `/id now` in a private chat. -/
def strangerIdWithArgument : Message :=
  { Sender := stranger, Chat := { ID := 2, Type_ := "private" }, Text := "/id now", Service := false }

/-- The stranger sends exactly `/id` in a private chat. -/
def strangerId : Message :=
  { Sender := stranger, Chat := { ID := 2, Type_ := "private" }, Text := "/id", Service := false }

/-- An inline query of the stranger. -/
def strangerQuery : Query :=
  { ID := "q1", From := stranger, Text := "rhinar" }

/-- An environment in which every URL is accepted, the case table changes
nothing, and the JSON decoder knows three bodies. -/
def plainEnv : Env :=
  { urlError := fun _ => none,
    lowerTable := fun c => c,
    unmarshalSearch := fun body =>
      if body = "two" then .ok { Data := twoCards }
      else if body = "empty" then .ok { Data := [] }
      else .error (.external "unexpected end of JSON input"),
    unmarshalCard := fun _ => .ok Card.zero }

/-- A remote that answers every request with status 200 and the body `two`. -/
def remoteTwo : FabDBClient :=
  { client := { apiEndpoint := apiEndpoint,
                HTTPClient := { Do := fun _ =>
                  ({ StatusCode := 200, Header := [("Content-Type", ["application/json"])],
                     Body := .ok "two" }, none) } } }

/-- A response with status 404 and an HTML body. -/
def notFoundHtml : Response :=
  { StatusCode := 404, Header := [("Content-Type", ["text/html"])], Body := .ok "<html>" }

/-- The stranger sends `/start` in a private chat. -/
def strangerStart : Message :=
  { Sender := stranger, Chat := { ID := 2, Type_ := "private" }, Text := "/start", Service := false }

/-- The stranger sends `/id` in a group chat. -/
def strangerIdInGroup : Message :=
  { Sender := stranger, Chat := { ID := -100, Type_ := "group" }, Text := "/id", Service := false }

/-- A transport whose `Send` and `Answer` always fail. -/
def brokenTelebot : Telebot :=
  { Send := fun _ _ => some (.external "telegram: bot was blocked by the user (403)"),
    Answer := fun _ _ => some (.external "telegram: query is too old (400)") }

/-- A bot without allowlist on the broken transport. -/
def brokenBot : Bot :=
  { revision := "", cards := twoCardSource, telegram := brokenTelebot, allowlist := [] }

/-- A bot without allowlist on the quiet transport. -/
def openBot : Bot :=
  { revision := "", cards := twoCardSource, telegram := quietTelebot, allowlist := [] }

/-- An inline query of three characters that take six bytes. -/
def threeUmlauts : Query :=
  { ID := "q2", From := stranger, Text := "äöü" }

/-- An inline query with the text `/id`. -/
def strangerIdQuery : Query :=
  { ID := "q3", From := stranger, Text := "/id" }

/-- The stranger sends `/start`, a tab and a word; the transport routes this text
to the handler of `/start`. -/
def strangerStartTab : Message :=
  { Sender := stranger, Chat := { ID := 2, Type_ := "private" }, Text := "/start\tnow",
    Service := false }

/-- A response with status 503 and a JSON body. -/
def unavailableJson : Response :=
  { StatusCode := 503, Header := [("Content-Type", ["application/json"])], Body := .ok "\x7b\x7d" }

/-- The command names handed to `IncTelegramCommands`, in order. -/
def commandNames (es : List Effect) : List String :=
  es.filterMap (fun e => match e with | Effect.IncTelegramCommands cmd => some cmd | _ => none)

/-! ## The words of the specification -/

/-- The first whitespace-delimited token of a text, as the specification words
the command name: leading whitespace is skipped and the token runs up to the next
whitespace character; a text without a token has the empty token. -/
def firstWhitespaceToken (s : String) : String :=
  String.mk ((s.data.dropWhile Char.isWhitespace).takeWhile (fun c => !c.isWhitespace))

/-! # Properties -/

/-! ## Binary search and the allowlist -/

/-- A predicate that stays true once it is true, below `n`. -/
def MonotoneBelow (n : Nat) (f : Nat → Bool) : Prop :=
  ∀ a b, a ≤ b → b < n → f a = true → f b = true

/-- The loop of `sort.Search` ends within `j - i` iterations, and for a monotone
predicate it returns the boundary between the false and the true indices. -/
theorem searchLoop_spec (n : Nat) (f : Nat → Bool) (hf : MonotoneBelow n f) :
    ∀ fuel i j, i ≤ j → j ≤ n → j - i ≤ fuel →
      (∀ k, k < i → f k = false) → (∀ k, j ≤ k → k < n → f k = true) →
      searchLoop f fuel i j ≤ n ∧
      (∀ k, k < searchLoop f fuel i j → f k = false) ∧
      (∀ k, searchLoop f fuel i j ≤ k → k < n → f k = true) := by
  intro fuel
  induction fuel with
  | zero =>
    intro i j hij hjn hfuel hlo hhi
    have hji : j = i := by omega
    subst hji
    exact ⟨hjn, hlo, hhi⟩
  | succ fuel ih =>
    intro i j hij hjn hfuel hlo hhi
    unfold searchLoop
    by_cases hlt : i < j
    · have h1 : i ≤ (i + j) / 2 := by omega
      have h2 : (i + j) / 2 < j := by omega
      simp only [hlt, if_true]
      cases hfh : f ((i + j) / 2) with
      | false =>
        simp only [Bool.not_false, if_true]
        apply ih ((i + j) / 2 + 1) j (by omega) hjn (by omega) _ hhi
        intro k hk
        cases hfk : f k with
        | false => rfl
        | true =>
          have := hf k ((i + j) / 2) (by omega) (by omega) hfk
          rw [hfh] at this
          exact absurd this (by decide)
      | true =>
        simp only [Bool.not_true, Bool.false_eq_true, if_false]
        apply ih i ((i + j) / 2) h1 (by omega) (by omega) hlo
        intro k hk hkn
        exact hf ((i + j) / 2) k hk hkn hfh
    · have hji : j = i := by omega
      subst hji
      simp only [hlt, if_false]
      exact ⟨hjn, hlo, hhi⟩

/-- The bound on the iterations does not matter once it is at least `j - i`: the
loop of `sort.Search` has ended by then. -/
theorem searchLoop_fuel (f : Nat → Bool) :
    ∀ fuel1 fuel2 i j, j - i ≤ fuel1 → j - i ≤ fuel2 →
      searchLoop f fuel1 i j = searchLoop f fuel2 i j := by
  intro fuel1
  induction fuel1 with
  | zero =>
    intro fuel2 i j h1 _
    have hij : ¬ i < j := by omega
    cases fuel2 with
    | zero => rfl
    | succ m => simp [searchLoop, hij]
  | succ n ih =>
    intro fuel2 i j h1 h2
    cases fuel2 with
    | zero =>
      have hij : ¬ i < j := by omega
      simp [searchLoop, hij]
    | succ m =>
      by_cases hij : i < j
      · have hlt : (i + j) / 2 < j := by omega
        have hle : i ≤ (i + j) / 2 := by omega
        simp only [searchLoop, hij, if_true]
        cases f ((i + j) / 2) with
        | false =>
          simp only [Bool.not_false, if_true]
          exact ih m _ _ (by omega) (by omega)
        | true =>
          simp only [Bool.not_true, Bool.false_eq_true, if_false]
          exact ih m _ _ (by omega) (by omega)
      · simp [searchLoop, hij]

/-- On a sorted slice the predicate of `sort.SearchInts` is monotone. -/
theorem searchInts_monotone (a : List Int) (x : Int) (hs : a.Sorted (· ≤ ·)) :
    MonotoneBelow a.length (fun i => decide (a.getD i 0 ≥ x)) := by
  intro i j hij hj hi
  have hi1 : i < a.length := by omega
  simp only [List.getD_eq_getElem a 0 hi1, List.getD_eq_getElem a 0 hj, ge_iff_le,
    decide_eq_true_eq] at hi ⊢
  have hle : a[i] ≤ a[j] := by
    have := hs.rel_get_of_le (show (⟨i, hi1⟩ : Fin a.length) ≤ ⟨j, hj⟩ from hij)
    simpa using this
  omega

/-- On a sorted slice, `sort.SearchInts` followed by the bounds and equality test
decides membership. -/
theorem searchInts_mem (a : List Int) (x : Int) (hs : a.Sorted (· ≤ ·)) :
    (SearchInts a x < a.length ∧ a.getD (SearchInts a x) 0 = x) ↔ x ∈ a := by
  have hspec := searchLoop_spec a.length _ (searchInts_monotone a x hs) a.length 0 a.length
    (Nat.zero_le _) (Nat.le_refl _) (by omega) (by intro k hk; omega) (by intro k hk hkn; omega)
  obtain ⟨_, hlo, hhi⟩ := hspec
  constructor
  · rintro ⟨hlt, heq⟩
    rw [List.getD_eq_getElem a 0 hlt] at heq
    rw [← heq]
    exact List.getElem_mem hlt
  · intro hx
    obtain ⟨k, hk, hkx⟩ := List.mem_iff_getElem.mp hx
    have hrk : SearchInts a x ≤ k := by
      by_contra hcon
      have := hlo k (by unfold SearchInts Search at hcon; omega)
      simp only [List.getD_eq_getElem a 0 hk, hkx, ge_iff_le, le_refl, decide_True] at this
      exact absurd this (by decide)
    have hlt : SearchInts a x < a.length := by omega
    refine ⟨hlt, ?_⟩
    have hge := hhi (SearchInts a x) (Nat.le_refl _) hlt
    simp only [ge_iff_le, decide_eq_true_eq] at hge
    have hge2 : x ≤ a.getD (SearchInts a x) 0 := hge
    rw [List.getD_eq_getElem a 0 hlt] at hge2 ⊢
    have hle : a[SearchInts a x] ≤ a[k] := by
      have := hs.rel_get_of_le (show (⟨SearchInts a x, hlt⟩ : Fin a.length) ≤ ⟨k, hk⟩ from hrk)
      simpa using this
    omega

/-- The method `isOnAllowlist` on a bot whose allowlist is sorted: everybody is
allowed by an empty list, and otherwise exactly the members are. -/
theorem isOnAllowlist_sorted (b : Bot) (q : Int) (hs : b.allowlist.Sorted (· ≤ ·)) :
    b.isOnAllowlist q = true ↔ (b.allowlist = [] ∨ q ∈ b.allowlist) := by
  unfold Bot.isOnAllowlist
  by_cases h0 : b.allowlist.length = 0
  · simp [h0, List.length_eq_zero.mp h0]
  · have hne : b.allowlist ≠ [] := fun h => h0 (by simp [h])
    simp only [h0, if_false, Bool.and_eq_true, decide_eq_true_eq, hne, false_or]
    exact searchInts_mem b.allowlist q hs

/-- Every sequence of `WithAllowlist` options succeeds on a bot with a sorted
allowlist and leaves a sorted allowlist. -/
theorem applyOptions_withAllowlist_sorted (idss : List (List Int)) :
    ∀ b : Bot, b.allowlist.Sorted (· ≤ ·) →
      ∃ b1, applyOptions (idss.map WithAllowlist) b = .ok b1 ∧
        b1.allowlist.Sorted (· ≤ ·) := by
  induction idss with
  | nil => intro b hb; exact ⟨b, rfl, hb⟩
  | cons ids idss ih =>
    intro b _
    simp only [List.map_cons, applyOptions, WithAllowlist]
    exact ih _ (List.sorted_insertionSort _ _)

/-- C1: for a bot built by `NewBotWithTelegram` from any sequence of
`WithAllowlist` options and every id `q`: construction succeeds; if the resulting
allowlist is empty then `isOnAllowlist q` is true, and otherwise `isOnAllowlist q`
is true exactly when `q` is an element of the allowlist. -/
theorem isOnAllowlist_of_options (botState : Cards) (bot : Telebot)
    (idss : List (List Int)) (q : Int) :
    ∃ b, NewBotWithTelegram botState bot (idss.map WithAllowlist) = .ok b ∧
      (b.allowlist = [] → b.isOnAllowlist q = true) ∧
      (b.allowlist ≠ [] → (b.isOnAllowlist q = true ↔ q ∈ b.allowlist)) := by
  obtain ⟨b, hb, hs⟩ := applyOptions_withAllowlist_sorted idss
    { revision := "", cards := botState, telegram := bot, allowlist := [] }
    List.sorted_nil
  refine ⟨b, hb, ?_, ?_⟩
  · intro he
    exact (isOnAllowlist_sorted b q hs).mpr (Or.inl he)
  · intro hne
    rw [isOnAllowlist_sorted b q hs]
    simp [hne]

/-! ## The message middleware -/

/-- A service message or a message of a bot: only the incoming counter moves. -/
theorem middleware_service_or_bot (b : Bot) (next : Message → HandlerRun) (m : Message)
    (h : m.IsService = true ∨ m.Sender.IsBot = true) :
    b.middleware next m = [Effect.IncTelegramEventsIncoming "message"] := by
  unfold Bot.middleware TelegramMessageEventType
  rcases h with h | h <;> simp [h]

/-- A sender who fails the allowlist check with a text other than `/id`: the
incoming counter and one log line. -/
theorem middleware_forbidden (b : Bot) (next : Message → HandlerRun) (m : Message)
    (hs : m.IsService = false) (hb : m.Sender.IsBot = false)
    (ha : b.isOnAllowlist m.Sender.ID = false) (ht : m.Text ≠ "/id") :
    b.middleware next m =
      [Effect.IncTelegramEventsIncoming "message",
       Effect.Log "info" "received message from forbidden sender"] := by
  unfold Bot.middleware TelegramMessageEventType CmdID
  simp [hs, hb, ha, ht]

/-- A message that passes both filters, with a handler that returns nil. -/
theorem middleware_served (b : Bot) (next : Message → HandlerRun) (m : Message)
    (hs : m.IsService = false) (hb : m.Sender.IsBot = false)
    (ha : b.isOnAllowlist m.Sender.ID = true ∨ m.Text = "/id")
    (he : (next m).err = none) :
    b.middleware next m =
      [Effect.IncTelegramEventsIncoming "message",
       Effect.IncTelegramCommands ((SplitSpace m.Text).headD ""),
       Effect.Log "debug" "received message",
       Effect.Next (next m),
       Effect.IncTelegramEventsOutgoing "message"] := by
  unfold Bot.middleware TelegramMessageEventType CmdID
  rcases ha with ha | ha <;> simp [hs, hb, ha, he]

/-- A message that passes both filters, with a handler that returns an error. -/
theorem middleware_failed (b : Bot) (next : Message → HandlerRun) (m : Message)
    (hs : m.IsService = false) (hb : m.Sender.IsBot = false)
    (ha : b.isOnAllowlist m.Sender.ID = true ∨ m.Text = "/id")
    (e : GoError) (he : (next m).err = some e) :
    b.middleware next m =
      [Effect.IncTelegramEventsIncoming "message",
       Effect.IncTelegramCommands ((SplitSpace m.Text).headD ""),
       Effect.Log "debug" "received message",
       Effect.Next (next m),
       Effect.Log "warn" "failed to handle bot command"] := by
  unfold Bot.middleware TelegramMessageEventType CmdID
  rcases ha with ha | ha <;> simp [hs, hb, ha, he]

/-- The four shapes of the effects of the message middleware. -/
theorem middleware_cases (b : Bot) (next : Message → HandlerRun) (m : Message) :
    ((m.IsService = true ∨ m.Sender.IsBot = true) ∧
      b.middleware next m = [Effect.IncTelegramEventsIncoming "message"]) ∨
    ((m.IsService = false ∧ m.Sender.IsBot = false ∧
        b.isOnAllowlist m.Sender.ID = false ∧ m.Text ≠ "/id") ∧
      b.middleware next m =
        [Effect.IncTelegramEventsIncoming "message",
         Effect.Log "info" "received message from forbidden sender"]) ∨
    ((m.IsService = false ∧ m.Sender.IsBot = false ∧
        (b.isOnAllowlist m.Sender.ID = true ∨ m.Text = "/id")) ∧
      ∃ last, (last = Effect.Log "warn" "failed to handle bot command" ∧ (next m).err ≠ none ∨
               last = Effect.IncTelegramEventsOutgoing "message" ∧ (next m).err = none) ∧
        b.middleware next m =
          [Effect.IncTelegramEventsIncoming "message",
           Effect.IncTelegramCommands ((SplitSpace m.Text).headD ""),
           Effect.Log "debug" "received message",
           Effect.Next (next m),
           last]) := by
  cases hs : m.IsService with
  | true => exact Or.inl ⟨Or.inl rfl, middleware_service_or_bot b next m (Or.inl hs)⟩
  | false =>
    cases hb : m.Sender.IsBot with
    | true => exact Or.inl ⟨Or.inr rfl, middleware_service_or_bot b next m (Or.inr hb)⟩
    | false =>
      by_cases hpass : b.isOnAllowlist m.Sender.ID = true ∨ m.Text = "/id"
      · refine Or.inr (Or.inr ⟨⟨rfl, rfl, hpass⟩, ?_⟩)
        cases he : (next m).err with
        | none =>
          exact ⟨_, Or.inr ⟨rfl, rfl⟩, middleware_served b next m hs hb hpass he⟩
        | some e =>
          exact ⟨_, Or.inl ⟨rfl, by simp⟩, middleware_failed b next m hs hb hpass e he⟩
      · have ha : b.isOnAllowlist m.Sender.ID = false := by
          cases h : b.isOnAllowlist m.Sender.ID with
          | false => rfl
          | true => exact absurd (Or.inl h) hpass
        have ht : m.Text ≠ "/id" := fun h => hpass (Or.inr h)
        exact Or.inr (Or.inl ⟨⟨rfl, rfl, ha, ht⟩, middleware_forbidden b next m hs hb ha ht⟩)

/-- C2: the callback of `Bot.middleware` calls the wrapped handler exactly once, on
the message itself, when the message is no service message, its sender is no bot,
and the sender passes the allowlist check or the text is exactly `/id`; in every
other case it calls the handler zero times.  `IncTelegramCommands` is called once
in the first case and never in the second.  In particular a sender who is not in a
non-empty (sorted) allowlist gets no handler call and no command count for
`/start`, and is served for `/id`. -/
theorem middleware_handler_calls (b : Bot) (next : Message → HandlerRun) (m : Message) :
    ((m.IsService = false ∧ m.Sender.IsBot = false ∧
        (b.isOnAllowlist m.Sender.ID = true ∨ m.Text = "/id")) →
      handlerCalls (b.middleware next m) = 1 ∧ Effect.Next (next m) ∈ b.middleware next m ∧
      commandIncs (b.middleware next m) = 1) ∧
    (¬ (m.IsService = false ∧ m.Sender.IsBot = false ∧
        (b.isOnAllowlist m.Sender.ID = true ∨ m.Text = "/id")) →
      handlerCalls (b.middleware next m) = 0 ∧ commandIncs (b.middleware next m) = 0) ∧
    (b.allowlist.Sorted (· ≤ ·) → b.allowlist ≠ [] → m.Sender.ID ∉ b.allowlist →
      m.IsService = false → m.Sender.IsBot = false →
      (m.Text = "/start" →
        handlerCalls (b.middleware next m) = 0 ∧ commandIncs (b.middleware next m) = 0) ∧
      (m.Text = "/id" →
        handlerCalls (b.middleware next m) = 1 ∧ Effect.Next (next m) ∈ b.middleware next m ∧
        commandIncs (b.middleware next m) = 1)) := by
  have key : ∀ (pass : Prop), pass = (m.IsService = false ∧ m.Sender.IsBot = false ∧
        (b.isOnAllowlist m.Sender.ID = true ∨ m.Text = "/id")) →
      (pass → handlerCalls (b.middleware next m) = 1 ∧
        Effect.Next (next m) ∈ b.middleware next m ∧ commandIncs (b.middleware next m) = 1) ∧
      (¬ pass → handlerCalls (b.middleware next m) = 0 ∧
        commandIncs (b.middleware next m) = 0) := by
    intro pass hpass
    subst hpass
    rcases middleware_cases b next m with ⟨h, ht⟩ | ⟨⟨hs, hb, ha, hx⟩, ht⟩ | ⟨hp, last, hl, ht⟩
    · rw [ht]
      refine ⟨fun hp => ?_, fun _ => ⟨by decide, by decide⟩⟩
      rcases h with h | h
      · rw [hp.1] at h; exact absurd h (by decide)
      · rw [hp.2.1] at h; exact absurd h (by decide)
    · rw [ht]
      refine ⟨fun hp => ?_, fun _ => ⟨by decide, by decide⟩⟩
      rcases hp.2.2 with h | h
      · rw [ha] at h; exact absurd h (by decide)
      · exact absurd h hx
    · rw [ht]
      refine ⟨fun _ => ?_, fun hn => absurd hp hn⟩
      rcases hl with ⟨hl, _⟩ | ⟨hl, _⟩ <;> subst hl <;>
        simp [handlerCalls, commandIncs, List.countP_cons]
  obtain ⟨k1, k2⟩ := key _ rfl
  refine ⟨k1, k2, ?_⟩
  intro hsorted hne hnot hs hb
  have ha : ¬ b.isOnAllowlist m.Sender.ID = true := by
    rw [isOnAllowlist_sorted b _ hsorted]
    rintro (h | h)
    · exact hne h
    · exact hnot h
  refine ⟨fun ht => k2 ?_, fun ht => k1 ⟨hs, hb, Or.inr ht⟩⟩
  rintro ⟨_, _, h | h⟩
  · exact ha h
  · rw [ht] at h; exact absurd h (by decide)

/-- C2 at the stranger and the guarded bot: `/start` reaches no handler and no
command counter, `/id` reaches the handler once and is counted once. -/
theorem middleware_handler_calls_witness :
    stranger.ID ∉ guardedBot.allowlist ∧ guardedBot.allowlist ≠ [] ∧
    (handlerCalls (guardedBot.middleware guardedBot.handleStart strangerStart) = 0 ∧
      commandIncs (guardedBot.middleware guardedBot.handleStart strangerStart) = 0) ∧
    (handlerCalls (guardedBot.middleware guardedBot.handleID strangerId) = 1 ∧
      commandIncs (guardedBot.middleware guardedBot.handleID strangerId) = 1) :=
  ⟨by decide, by decide,
   ((middleware_handler_calls guardedBot guardedBot.handleStart strangerStart).2.2
      (by decide) (by decide) (by decide) rfl rfl).1 rfl,
   (((middleware_handler_calls guardedBot guardedBot.handleID strangerId).2.2
      (by decide) (by decide) (by decide) rfl rfl).2 rfl).1,
   (((middleware_handler_calls guardedBot guardedBot.handleID strangerId).2.2
      (by decide) (by decide) (by decide) rfl rfl).2 rfl).2.2⟩

/-! ## The inline-query middleware -/

/-- The three shapes of the effects of the inline-query middleware. -/
theorem queryMiddleware_cases (b : Bot) (next : Query → HandlerRun) (m : Query) :
    ((m.From.IsBot = true ∨ len m.Text ≤ 3) ∧
      b.queryMiddleware next m = [Effect.IncTelegramEventsIncoming "inline"]) ∨
    ((m.From.IsBot = false ∧ 3 < len m.Text ∧
        b.isOnAllowlist m.From.ID = false ∧ m.Text ≠ "/id") ∧
      b.queryMiddleware next m =
        [Effect.IncTelegramEventsIncoming "inline",
         Effect.Log "info" "received message from forbidden sender"]) ∨
    ((m.From.IsBot = false ∧ 3 < len m.Text ∧
        (b.isOnAllowlist m.From.ID = true ∨ m.Text = "/id")) ∧
      ∃ last, (last = Effect.Log "warn" "failed to handle inline query" ∧ (next m).err ≠ none ∨
               last = Effect.IncTelegramEventsOutgoing "inline" ∧ (next m).err = none) ∧
        b.queryMiddleware next m =
          [Effect.IncTelegramEventsIncoming "inline",
           Effect.Log "debug" "received message",
           Effect.Next (next m),
           last]) := by
  unfold Bot.queryMiddleware TelegramInlineQueryEventType CmdID
  cases hb : m.From.IsBot with
  | true => simp
  | false =>
    by_cases hl : len m.Text ≤ 3
    · simp [hl]
    · have hl2 : 3 < len m.Text := by omega
      cases ha : b.isOnAllowlist m.From.ID with
      | true =>
        cases he : (next m).err with
        | none => simp [hl, hl2, he]
        | some e => simp [hl, hl2, he]
      | false =>
        by_cases ht : m.Text = "/id"
        · rw [ht] at hl
          exact absurd (by decide) hl
        · simp [hl, hl2, ht]

/-! ## Counters around the handler -/

/-- C3: every inbound event moves the incoming counter exactly once, whatever the
filters and the handler do: the first effect of the callback of `Bot.middleware`
is `IncTelegramEventsIncoming "message"`, the first effect of the callback of
`Bot.queryMiddleware` is `IncTelegramEventsIncoming "inline"`, and in both no
further call of `IncTelegramEventsIncoming` follows.  Being first, the call comes
before every handler run and does not depend on any filter. -/
theorem incoming_counted_once_first (b : Bot) :
    (∀ (next : Message → HandlerRun) (m : Message),
      ∃ rest, b.middleware next m = Effect.IncTelegramEventsIncoming "message" :: rest ∧
        incomingIncs rest = 0 ∧ incomingIncs (b.middleware next m) = 1) ∧
    (∀ (next : Query → HandlerRun) (q : Query),
      ∃ rest, b.queryMiddleware next q = Effect.IncTelegramEventsIncoming "inline" :: rest ∧
        incomingIncs rest = 0 ∧ incomingIncs (b.queryMiddleware next q) = 1) := by
  constructor
  · intro next m
    rcases middleware_cases b next m with ⟨_, ht⟩ | ⟨_, ht⟩ | ⟨_, last, hl, ht⟩
    · exact ⟨_, ht, by decide, by rw [ht]; decide⟩
    · exact ⟨_, ht, by decide, by rw [ht]; decide⟩
    · refine ⟨_, ht, ?_, ?_⟩
      · rcases hl with ⟨hl, _⟩ | ⟨hl, _⟩ <;> subst hl <;> simp [incomingIncs, List.countP_cons]
      · rw [ht]
        rcases hl with ⟨hl, _⟩ | ⟨hl, _⟩ <;> subst hl <;> simp [incomingIncs, List.countP_cons]
  · intro next q
    rcases queryMiddleware_cases b next q with ⟨_, ht⟩ | ⟨_, ht⟩ | ⟨_, last, hl, ht⟩
    · exact ⟨_, ht, by decide, by rw [ht]; decide⟩
    · exact ⟨_, ht, by decide, by rw [ht]; decide⟩
    · refine ⟨_, ht, ?_, ?_⟩
      · rcases hl with ⟨hl, _⟩ | ⟨hl, _⟩ <;> subst hl <;> simp [incomingIncs, List.countP_cons]
      · rw [ht]
        rcases hl with ⟨hl, _⟩ | ⟨hl, _⟩ <;> subst hl <;> simp [incomingIncs, List.countP_cons]

/-- C4: for an event that passes the filters of `Bot.middleware` resp.
`Bot.queryMiddleware`: when the handler returns nil, `IncTelegramEventsOutgoing`
is called exactly once, with `"message"` resp. `"inline"`, as the last effect,
right after the handler run; when the handler returns an error, it is not called,
the handler ran once and the callback ends with a warning in the log (the callback
has no result, so nothing is propagated).  For an event that is filtered out the
outgoing counter does not move either. -/
theorem outgoing_counted_on_success (b : Bot) :
    (∀ (next : Message → HandlerRun) (m : Message),
      ((m.IsService = false ∧ m.Sender.IsBot = false ∧
          (b.isOnAllowlist m.Sender.ID = true ∨ m.Text = "/id")) →
        ((next m).err = none →
          outgoingIncs (b.middleware next m) = 1 ∧
          ∃ pre, outgoingIncs pre = 0 ∧ b.middleware next m =
            pre ++ [Effect.Next (next m), Effect.IncTelegramEventsOutgoing "message"]) ∧
        ((next m).err ≠ none →
          outgoingIncs (b.middleware next m) = 0 ∧ handlerCalls (b.middleware next m) = 1 ∧
          ∃ pre, b.middleware next m =
            pre ++ [Effect.Next (next m), Effect.Log "warn" "failed to handle bot command"])) ∧
      (¬ (m.IsService = false ∧ m.Sender.IsBot = false ∧
          (b.isOnAllowlist m.Sender.ID = true ∨ m.Text = "/id")) →
        outgoingIncs (b.middleware next m) = 0)) ∧
    (∀ (next : Query → HandlerRun) (q : Query),
      ((q.From.IsBot = false ∧ 3 < len q.Text ∧
          (b.isOnAllowlist q.From.ID = true ∨ q.Text = "/id")) →
        ((next q).err = none →
          outgoingIncs (b.queryMiddleware next q) = 1 ∧
          ∃ pre, outgoingIncs pre = 0 ∧ b.queryMiddleware next q =
            pre ++ [Effect.Next (next q), Effect.IncTelegramEventsOutgoing "inline"]) ∧
        ((next q).err ≠ none →
          outgoingIncs (b.queryMiddleware next q) = 0 ∧
          handlerCalls (b.queryMiddleware next q) = 1 ∧
          ∃ pre, b.queryMiddleware next q =
            pre ++ [Effect.Next (next q), Effect.Log "warn" "failed to handle inline query"])) ∧
      (¬ (q.From.IsBot = false ∧ 3 < len q.Text ∧
          (b.isOnAllowlist q.From.ID = true ∨ q.Text = "/id")) →
        outgoingIncs (b.queryMiddleware next q) = 0)) := by
  constructor
  · intro next m
    rcases middleware_cases b next m with ⟨h, ht⟩ | ⟨⟨hs, hb, ha, hx⟩, ht⟩ | ⟨hp, last, hl, ht⟩
    · refine ⟨fun hp => ?_, fun _ => by rw [ht]; decide⟩
      rcases h with h | h
      · rw [hp.1] at h; exact absurd h (by decide)
      · rw [hp.2.1] at h; exact absurd h (by decide)
    · refine ⟨fun hp => ?_, fun _ => by rw [ht]; decide⟩
      rcases hp.2.2 with h | h
      · rw [ha] at h; exact absurd h (by decide)
      · exact absurd h hx
    · refine ⟨fun _ => ⟨fun he => ?_, fun he => ?_⟩, fun hn => absurd hp hn⟩
      · rcases hl with ⟨_, hne⟩ | ⟨hl, _⟩
        · exact absurd he hne
        · subst hl
          rw [ht]
          refine ⟨by simp [outgoingIncs, List.countP_cons], ?_⟩
          exact ⟨[Effect.IncTelegramEventsIncoming "message",
            Effect.IncTelegramCommands ((SplitSpace m.Text).headD ""),
            Effect.Log "debug" "received message"], by simp [outgoingIncs, List.countP_cons], rfl⟩
      · rcases hl with ⟨hl, _⟩ | ⟨_, hnone⟩
        · subst hl
          rw [ht]
          refine ⟨by simp [outgoingIncs, List.countP_cons],
            by simp [handlerCalls, List.countP_cons], ?_⟩
          exact ⟨[Effect.IncTelegramEventsIncoming "message",
            Effect.IncTelegramCommands ((SplitSpace m.Text).headD ""),
            Effect.Log "debug" "received message"], rfl⟩
        · exact absurd hnone he
  · intro next q
    rcases queryMiddleware_cases b next q with
      ⟨h, ht⟩ | ⟨⟨hb, hlen, ha, hx⟩, ht⟩ | ⟨hp, last, hl, ht⟩
    · refine ⟨fun hp => ?_, fun _ => by rw [ht]; decide⟩
      rcases h with h | h
      · rw [hp.1] at h; exact absurd h (by decide)
      · have := hp.2.1; omega
    · refine ⟨fun hp => ?_, fun _ => by rw [ht]; decide⟩
      rcases hp.2.2 with h | h
      · rw [ha] at h; exact absurd h (by decide)
      · exact absurd h hx
    · refine ⟨fun _ => ⟨fun he => ?_, fun he => ?_⟩, fun hn => absurd hp hn⟩
      · rcases hl with ⟨_, hne⟩ | ⟨hl, _⟩
        · exact absurd he hne
        · subst hl
          rw [ht]
          refine ⟨by simp [outgoingIncs, List.countP_cons], ?_⟩
          exact ⟨[Effect.IncTelegramEventsIncoming "inline",
            Effect.Log "debug" "received message"], by simp [outgoingIncs, List.countP_cons], rfl⟩
      · rcases hl with ⟨hl, _⟩ | ⟨_, hnone⟩
        · subst hl
          rw [ht]
          refine ⟨by simp [outgoingIncs, List.countP_cons],
            by simp [handlerCalls, List.countP_cons], ?_⟩
          exact ⟨[Effect.IncTelegramEventsIncoming "inline",
            Effect.Log "debug" "received message"], rfl⟩
        · exact absurd hnone he

/-- C4 on the broken transport: the id handler fails, the outgoing counter stays,
and on the quiet transport it moves once. -/
theorem outgoing_counted_on_success_witness :
    (brokenBot.handleID strangerId).err ≠ none ∧
    outgoingIncs (brokenBot.middleware brokenBot.handleID strangerId) = 0 ∧
    outgoingIncs (guardedBot.middleware guardedBot.handleID strangerId) = 1 :=
  ⟨by decide,
   ((((outgoing_counted_on_success brokenBot).1 brokenBot.handleID strangerId).1
      ⟨rfl, rfl, Or.inr rfl⟩).2 (by decide)).1,
   ((((outgoing_counted_on_success guardedBot).1 guardedBot.handleID strangerId).1
      ⟨rfl, rfl, Or.inr rfl⟩).1 (by decide)).1⟩

/-! ## The handlers -/

/-- C5: `handleID` on a message of a private chat performs exactly one `Send`, to
the chat, with the text `Your user id is ` followed by the decimal rendering of the
sender's id, and returns the error result of that `Send`; on a message of any
other chat it performs no `Send` and returns nil. -/
theorem handleID_spec (b : Bot) (message : Message) :
    (message.Private = true →
      sends (b.handleID message).actions =
        [(Recipient.chat message.Chat, "Your user id is " ++ fmtInt message.Sender.ID)] ∧
      (b.handleID message).err =
        b.telegram.Send (Recipient.chat message.Chat)
          ("Your user id is " ++ fmtInt message.Sender.ID)) ∧
    (message.Private = false →
      sends (b.handleID message).actions = [] ∧ (b.handleID message).err = none) := by
  unfold Bot.handleID
  constructor
  · intro hp
    simp [hp, sends]
  · intro hp
    simp [hp, sends]

/-- C5 at the stranger: one reply with the id 2 in the private chat, none in the
group chat. -/
theorem handleID_spec_witness :
    strangerId.Private = true ∧ strangerIdInGroup.Private = false ∧
    sends (guardedBot.handleID strangerId).actions =
      [(Recipient.chat { ID := 2, Type_ := "private" }, "Your user id is 2")] ∧
    sends (guardedBot.handleID strangerIdInGroup).actions = [] ∧
    (guardedBot.handleID strangerIdInGroup).err = none :=
  ⟨by decide, by decide,
   ((handleID_spec guardedBot strangerId).1 (by decide)).1,
   ((handleID_spec guardedBot strangerIdInGroup).2 (by decide)).1,
   ((handleID_spec guardedBot strangerIdInGroup).2 (by decide)).2⟩

/-- C6, as stated, fails: a sender who is not on the allowlist and sends `/id now`
in a private chat (no service message, no bot, text starting with `/id`) gets no
reply from the middleware-wrapped id handler. -/
theorem id_with_argument_not_answered :
    strangerIdWithArgument.IsService = false ∧ strangerIdWithArgument.Sender.IsBot = false ∧
    HasPrefix strangerIdWithArgument.Text "/id" = true ∧
    strangerIdWithArgument.Private = true ∧
    sentBy (guardedBot.middleware guardedBot.handleID strangerIdWithArgument) = [] ∧
    handlerCalls (guardedBot.middleware guardedBot.handleID strangerIdWithArgument) = 0 := by
  decide

/-- C6, amended: for every bot with a sorted allowlist and every message in a
private chat that is no service message and whose sender is no bot, if the text is
exactly `/id`, or the text starts with `/id` and the allowlist is empty or holds
the sender, then the middleware-wrapped id handler sends exactly one reply, to
the chat, with the text `Your user id is ` followed by the sender's id. -/
theorem id_reply_through_middleware (b : Bot) (m : Message)
    (hsorted : b.allowlist.Sorted (· ≤ ·))
    (hs : m.IsService = false) (hb : m.Sender.IsBot = false) (hp : m.Private = true)
    (ht : m.Text = "/id" ∨
      (HasPrefix m.Text "/id" = true ∧ (b.allowlist = [] ∨ m.Sender.ID ∈ b.allowlist))) :
    sentBy (b.middleware b.handleID m) =
      [(Recipient.chat m.Chat, "Your user id is " ++ fmtInt m.Sender.ID)] := by
  have hpass : b.isOnAllowlist m.Sender.ID = true ∨ m.Text = "/id" := by
    rcases ht with ht | ⟨_, ha⟩
    · exact Or.inr ht
    · exact Or.inl ((isOnAllowlist_sorted b _ hsorted).mpr ha)
  have hsend : sends (b.handleID m).actions =
      [(Recipient.chat m.Chat, "Your user id is " ++ fmtInt m.Sender.ID)] := by
    unfold Bot.handleID
    simp [hp, sends]
  rcases middleware_cases b b.handleID m with ⟨h, _⟩ | ⟨⟨_, _, ha, hx⟩, _⟩ | ⟨_, last, hl, htr⟩
  · rcases h with h | h
    · rw [hs] at h; exact absurd h (by decide)
    · rw [hb] at h; exact absurd h (by decide)
  · rcases hpass with h | h
    · rw [ha] at h; exact absurd h (by decide)
    · exact absurd h hx
  · rw [htr]
    rcases hl with ⟨hl, _⟩ | ⟨hl, _⟩ <;> subst hl <;> simp [sentBy, hsend]

/-- C6, amended, at the stranger who sends exactly `/id` to the guarded bot. -/
theorem id_reply_through_middleware_witness :
    guardedBot.allowlist.Sorted (· ≤ ·) ∧ stranger.ID ∉ guardedBot.allowlist ∧
    sentBy (guardedBot.middleware guardedBot.handleID strangerId) =
      [(Recipient.chat strangerId.Chat, "Your user id is 2")] :=
  ⟨by decide, by decide,
   id_reply_through_middleware guardedBot strangerId (by decide) (by decide) (by decide)
     (by decide) (Or.inl (by decide))⟩

/-- The length of the result list built by the loop of `handleOnQuery`. -/
theorem photoResults_length (cards : List Card) : ∀ k, (photoResults cards k).length = cards.length := by
  induction cards with
  | nil => intro k; rfl
  | cons c cs ih => intro k; simp [photoResults, ih]

/-- The `i`-th result built by the loop of `handleOnQuery` started at index `k`. -/
theorem photoResults_getElem? (cards : List Card) :
    ∀ (k i : Nat) (card : Card), cards[i]? = some card →
      (photoResults cards k)[i]? =
        some { ID := Itoa (k + i), URL := card.Image, Title := card.Name,
               Description := card.Text, ThumbURL := card.Image } := by
  induction cards with
  | nil => intro k i card h; simp at h
  | cons c cs ih =>
    intro k i card h
    cases i with
    | zero =>
      simp only [List.getElem?_cons_zero, Option.some.injEq] at h
      subst h
      simp [photoResults]
    | succ i =>
      simp only [List.getElem?_cons_succ] at h
      have := ih (k + 1) i card h
      simp only [photoResults, List.getElem?_cons_succ, this]
      have hki : k + 1 + i = k + (i + 1) := by omega
      rw [hki]

/-- C7: when `ListCards` returns the cards `cards` and no error, `handleOnQuery`
answers the query exactly once; the response has cache time 60 and as many
results as there are cards, and result `i` (from zero) has the name of card `i`
as title, its text as description, its image as URL and thumbnail URL, and the
decimal string of `i` as result id. -/
theorem handleOnQuery_results (b : Bot) (q : Query) (cards : List Card)
    (h : b.cards.ListCards q.Text = (cards, none)) :
    ∃ resp, answers (b.handleOnQuery q).actions = [(q, resp)] ∧
      resp.CacheTime = 60 ∧ resp.Results.length = cards.length ∧
      ∀ (i : Nat) (card : Card), cards[i]? = some card →
        resp.Results[i]? =
          some { ID := Itoa i, URL := card.Image, Title := card.Name,
                 Description := card.Text, ThumbURL := card.Image } := by
  refine ⟨{ Results := photoResults cards 0, CacheTime := 60 }, ?_, rfl,
    photoResults_length cards 0, ?_⟩
  · unfold Bot.handleOnQuery
    rw [h]
    cases ha : b.telegram.Answer q { Results := photoResults cards 0, CacheTime := 60 } with
    | none => simp [answers, ha]
    | some e => simp [answers, ha]
  · intro i card hc
    have := photoResults_getElem? cards 0 i card hc
    simpa using this

/-- C7 at the card source with two cards: the results get the ids `0` and `1`. -/
theorem handleOnQuery_results_witness :
    guardedBot.cards.ListCards strangerQuery.Text = (twoCards, none) ∧
    (answers (guardedBot.handleOnQuery strangerQuery).actions).map
      (fun a => a.2.Results.map (fun r => r.ID)) = [["0", "1"]] ∧
    ∃ resp, answers (guardedBot.handleOnQuery strangerQuery).actions = [(strangerQuery, resp)] ∧
      resp.CacheTime = 60 ∧ resp.Results.length = twoCards.length ∧
      ∀ (i : Nat) (card : Card), twoCards[i]? = some card →
        resp.Results[i]? =
          some { ID := Itoa i, URL := card.Image, Title := card.Name,
                 Description := card.Text, ThumbURL := card.Image } :=
  ⟨rfl, by decide, handleOnQuery_results guardedBot strangerQuery twoCards rfl⟩

/-! ## The FabDB client -/

/-- What `Client.get` gives when the request can be built and the remote answers
with a status from 200 to 299 and no transport error. -/
theorem get_of_2xx (env : Env) (c : Client) (path : String) (resp : Response)
    (hurl : env.urlError (c.apiEndpoint ++ path) = none)
    (hdo : c.HTTPClient.Do (Client.prepRequest
      { Method := "GET", URL := c.apiEndpoint ++ path, Header := [], Body := none } []) =
        (resp, none))
    (h2xx : 200 ≤ resp.StatusCode ∧ resp.StatusCode ≤ 299) :
    (Client.get env c path).err = none ∧ (Client.get env c path).value = some resp := by
  have hnot : ¬ (resp.StatusCode < 200 ∨ resp.StatusCode > 299) := by omega
  unfold Client.get Client.do_ Client.doWithEndpoint
  simp [hurl, hdo, Client.checkResponse, hnot]

/-- C8: when the request of `ListCards` can be built and the remote answers it with
a status from 200 to 299 whose body decodes to an envelope with the data list `D`:
for an empty `D`, `ListCards` returns an error and the empty list; for a non-empty
`D` it returns no error and exactly `D` (same length, same order).  A failed fetch
and a failed decoding give an error and the empty list as well. -/
theorem ListCards_spec (env : Env) (c : FabDBClient) (query : String) :
    (∀ (resp : Response) (body : String) (result : FaBDBSearchResponse),
      env.urlError (c.client.apiEndpoint ++
        ("/cards?per_page=30&keywords=" ++ query ++ "&page=1&use-case=browse")) = none →
      c.client.HTTPClient.Do (Client.prepRequest
        { Method := "GET",
          URL := c.client.apiEndpoint ++
            ("/cards?per_page=30&keywords=" ++ query ++ "&page=1&use-case=browse"),
          Header := [], Body := none } []) = (resp, none) →
      200 ≤ resp.StatusCode ∧ resp.StatusCode ≤ 299 →
      resp.Body = .ok body → env.unmarshalSearch body = .ok result →
      (result.Data = [] →
        (c.ListCards env query).err ≠ none ∧ (c.ListCards env query).value = []) ∧
      (result.Data ≠ [] →
        (c.ListCards env query).err = none ∧ (c.ListCards env query).value = result.Data ∧
        (c.ListCards env query).value.length = result.Data.length)) ∧
    ((Client.get env c.client
        ("/cards?per_page=30&keywords=" ++ query ++ "&page=1&use-case=browse")).err ≠ none →
      (c.ListCards env query).err ≠ none ∧ (c.ListCards env query).value = []) ∧
    (∀ (resp : Response) (e : GoError),
      (Client.get env c.client
        ("/cards?per_page=30&keywords=" ++ query ++ "&page=1&use-case=browse")).err = none →
      (Client.get env c.client
        ("/cards?per_page=30&keywords=" ++ query ++ "&page=1&use-case=browse")).value =
          some resp →
      Client.decodeJSON env.unmarshalSearch resp = .error e →
      (c.ListCards env query).err = some e ∧ (c.ListCards env query).value = []) := by
  refine ⟨?_, ?_, ?_⟩
  · intro resp body result hurl hdo h2xx hbody hjson
    obtain ⟨herr, hval⟩ := get_of_2xx env c.client _ resp hurl hdo h2xx
    have hdec : Client.decodeJSON env.unmarshalSearch resp = .ok result := by
      unfold Client.decodeJSON
      rw [hbody]
      exact hjson
    constructor
    · intro hD
      unfold FabDBClient.ListCards
      simp [herr, hval, hdec, hD]
    · intro hD
      have hlen : ¬ result.Data.length ≤ 0 := by
        have := List.length_pos.mpr hD
        omega
      unfold FabDBClient.ListCards
      simp [herr, hval, hdec, hlen]
  · intro hne
    cases herr : (Client.get env c.client
        ("/cards?per_page=30&keywords=" ++ query ++ "&page=1&use-case=browse")).err with
    | none => exact absurd herr hne
    | some e =>
      unfold FabDBClient.ListCards
      simp [herr]
  · intro resp e herr hval hdec
    unfold FabDBClient.ListCards
    simp [herr, hval, hdec]

/-- C8 at a remote that answers with status 200 and a body of two cards. -/
theorem ListCards_spec_witness :
    (remoteTwo.ListCards plainEnv "rhinar").err = none ∧
    (remoteTwo.ListCards plainEnv "rhinar").value = twoCards :=
  have h := (ListCards_spec plainEnv remoteTwo "rhinar").1
    { StatusCode := 200, Header := [("Content-Type", ["application/json"])], Body := .ok "two" }
    "two" { Data := twoCards } rfl rfl (by decide) rfl rfl
  ⟨(h.2 (by decide)).1, (h.2 (by decide)).2.1⟩

/-- Go's `len` of a concatenation. -/
theorem len_append (a b : String) : len (a ++ b) = len a + len b := by
  unfold len
  simp [String.utf8ByteSize, String.append]

/-- The ASCII step of `strings.ToLower` never yields an upper-case letter for one. -/
theorem asciiLower_not_upper (c : Char) (h : isUpperASCII c = true) :
    isUpperASCII (asciiLower c) = false := by
  unfold isUpperASCII at h
  simp only [decide_eq_true_eq] at h
  unfold asciiLower
  simp only [h, and_self, if_true]
  have key : ∀ n, 65 ≤ n → n ≤ 90 → isUpperASCII (Char.ofNat (n + 32)) = false := by
    intro n h1 h2
    interval_cases n <;> decide
  exact key _ h.1 h.2

/-- The ASCII step of `strings.ToLower` leaves every other character alone. -/
theorem asciiLower_of_not_upper (c : Char) (h : isUpperASCII c = false) : asciiLower c = c := by
  unfold isUpperASCII at h
  simp only [decide_eq_false_iff_not] at h
  unfold asciiLower
  simp [h]

/-- The result of `asciiLower` is never an ASCII upper-case letter. -/
theorem asciiLower_result_not_upper (c : Char) : isUpperASCII (asciiLower c) = false := by
  cases h : isUpperASCII c with
  | true => exact asciiLower_not_upper c h
  | false => rw [asciiLower_of_not_upper c h]; exact h

/-- Both paths of `strings.ToLower` map the string rune by rune with
`unicode.ToLower`. -/
theorem ToLower_data (table : Char → Char) (s : String) :
    (ToLower table s).data = s.data.map (unicodeToLower table) := by
  unfold ToLower
  by_cases hascii : (s.data.all (fun c => decide (c.toNat < 128))) = true
  · have hmap : s.data.map asciiLower = s.data.map (unicodeToLower table) := by
      apply List.map_congr_left
      intro c hc
      have := List.all_eq_true.mp hascii c hc
      simp only [decide_eq_true_eq] at this
      unfold unicodeToLower
      have h127 : c.toNat ≤ 127 := by omega
      simp [h127]
    by_cases hup : (s.data.any isUpperASCII) = true
    · simp [hascii, hup, hmap]
    · simp only [Bool.not_eq_true] at hup
      simp only [hascii, if_true, hup, Bool.not_false]
      rw [← hmap]
      symm
      conv_rhs => rw [← List.map_id s.data]
      apply List.map_congr_left
      intro c hc
      have hnone : isUpperASCII c = false := by
        cases hc2 : isUpperASCII c with
        | false => rfl
        | true =>
          have : s.data.any isUpperASCII = true := List.any_eq_true.mpr ⟨c, hc, hc2⟩
          rw [hup] at this
          exact absurd this (by decide)
      simp [asciiLower_of_not_upper c hnone]
  · simp [hascii]

/-- The requests that `Client.get` hands to the HTTP client. -/
theorem get_sent (env : Env) (c : Client) (path : String) :
    (Client.get env c path).sent =
      (match env.urlError (c.apiEndpoint ++ path) with
       | some _ => []
       | none =>
         [Client.prepRequest
           { Method := "GET", URL := c.apiEndpoint ++ path, Header := [], Body := none } []]) := by
  unfold Client.get Client.do_ Client.doWithEndpoint
  cases env.urlError (c.apiEndpoint ++ path) <;> rfl

/-- The requests that `GetCard` hands to the HTTP client. -/
theorem GetCard_sent (env : Env) (c : FabDBClient) (identifier : String) :
    (c.GetCard env identifier).sent =
      (match env.urlError (c.client.apiEndpoint ++
          ("/cards/" ++ ToLower env.lowerTable identifier)) with
       | some _ => []
       | none =>
         [Client.prepRequest
           { Method := "GET",
             URL := c.client.apiEndpoint ++ ("/cards/" ++ ToLower env.lowerTable identifier),
             Header := [], Body := none } []]) := by
  rw [← get_sent]
  unfold FabDBClient.GetCard
  simp only []
  split
  · rfl
  · rfl
  · split <;> rfl

/-- Go's `strings.Cut` when the separator does not occur. -/
theorem cutChar_of_not_mem (sep : Char) (l : List Char) (h : sep ∉ l) :
    cutChar sep l = (l, [], false) := by
  induction l with
  | nil => rfl
  | cons c cs ih =>
    have hc : c ≠ sep := fun heq => h (by rw [heq]; exact List.mem_cons_self _ _)
    have hcs : sep ∉ cs := fun hm => h (List.mem_cons_of_mem _ hm)
    simp [cutChar, hc, ih hcs]

/-- How `url.Parse` splits the URL of a card at the default endpoint when the
text behind `/cards/` has neither `#` nor `?`: scheme `https`, host
`api.fabdb.net`, no query, no fragment, and the path `/cards/` with that text. -/
theorem urlSplit_default (l : String) (h : ∀ ch ∈ l.data, ch ≠ '#' ∧ ch ≠ '?') :
    urlSplit (apiEndpoint ++ ("/cards/" ++ l)) =
      some { Scheme := "https", Opaque := "", Authority := "api.fabdb.net",
             Path := "/cards/" ++ l, ForceQuery := false, RawQuery := "", Fragment := "" } := by
  have hdata : (apiEndpoint ++ ("/cards/" ++ l)).data =
      'h' :: 't' :: 't' :: 'p' :: 's' :: ':' :: ("//api.fabdb.net/cards/".data ++ l.data) := by
    simp only [String.data_append]
    rfl
  have hhash : '#' ∉ (apiEndpoint ++ ("/cards/" ++ l)).data := by
    rw [hdata]
    intro hm
    simp only [List.mem_cons, List.mem_append] at hm
    rcases hm with hm | hm | hm | hm | hm | hm | hm | hm
    all_goals first
      | exact absurd hm (by decide)
      | exact (h _ hm).1 rfl
  have hq : '?' ∉ "//api.fabdb.net/cards/".data ++ l.data := by
    intro hm
    rw [List.mem_append] at hm
    rcases hm with hm | hm
    · exact absurd hm (by decide)
    · exact (h _ hm).2 rfl
  unfold urlSplit
  rw [cutChar_of_not_mem _ _ hhash, hdata]
  have hscheme : getSchemeLoop
      ('h' :: 't' :: 't' :: 'p' :: 's' :: ':' :: ("//api.fabdb.net/cards/".data ++ l.data)) 0
      ('h' :: 't' :: 't' :: 'p' :: 's' :: ':' :: ("//api.fabdb.net/cards/".data ++ l.data)) =
      some ("https".data, "//api.fabdb.net/cards/".data ++ l.data) := rfl
  have hstar : ('h' :: 't' :: 't' :: 'p' :: 's' :: ':' ::
      ("//api.fabdb.net/cards/".data ++ l.data)) ≠ ['*'] := by
    intro heq
    have := (List.cons.inj heq).1
    exact absurd this (by decide)
  have hforce : ¬ (("//api.fabdb.net/cards/".data ++ l.data).getLast? = some '?' ∧
      ("//api.fabdb.net/cards/".data ++ l.data).count '?' = 1) := by
    rintro ⟨hl, _⟩
    exact hq (List.mem_of_getLast?_eq_some hl)
  have hauth : cutChar '/' (("//api.fabdb.net/cards/".data ++ l.data).drop 2) =
      ("api.fabdb.net".data, "cards/".data ++ l.data, true) := rfl
  have hpre1 : "/".data.isPrefixOf ("//api.fabdb.net/cards/".data ++ l.data) = true := rfl
  have hpre2 : "//".data.isPrefixOf ("//api.fabdb.net/cards/".data ++ l.data) = true := rfl
  simp only [if_neg hstar, hscheme, hforce, decide_False, Bool.false_eq_true, if_false,
    cutChar_of_not_mem _ _ hq, hpre1, hpre2, hauth, Bool.not_true, Bool.false_and,
    Bool.and_true, if_true]
  have hscheme2 : String.mk (List.map asciiLower "https".data) = "https" := by decide
  have hpath : String.mk ('/' :: ("cards/".data ++ l.data)) = "/cards/" ++ l := by
    apply String.ext
    simp only [String.data_append]
    rfl
  have hauth2 : String.mk "api.fabdb.net".data = "api.fabdb.net" := rfl
  have hempty : String.mk [] = "" := rfl
  have hcond : (!"https".data.isEmpty ||
      !"///".data.isPrefixOf ("//api.fabdb.net/cards/".data ++ l.data)) = true := rfl
  rw [if_pos hcond, hscheme2, hpath, hauth2, hempty]

/-- C9, as stated, fails.  The identifier is put into the URL without escaping, so
for `WTR001?X` the path of the request is `/cards/wtr001` (the rest is the query)
and for `WTR001#X` it is `/cards/wtr001` as well (the rest is the fragment): not
`/cards/` followed by the lower-cased identifier.  And `strings.ToLower` leaves
the upper-case letter `ℂ` (U+2102, which has no lower-case letter) as it is, so
the path for the identifier `ℂ` contains that upper-case letter. -/
theorem GetCard_path_cut_and_capital_kept :
    ToLower plainEnv.lowerTable "WTR001?X" = "wtr001?x" ∧
    (remoteTwo.GetCard plainEnv "WTR001?X").sent.map
      (fun r => (r.Method, r.urlPath, (urlSplit r.URL).map (fun u => u.RawQuery))) =
        [("GET", some "/cards/wtr001", some "x")] ∧
    (remoteTwo.GetCard plainEnv "WTR001#X").sent.map
      (fun r => (r.Method, r.urlPath, (urlSplit r.URL).map (fun u => u.Fragment))) =
        [("GET", some "/cards/wtr001", some "x")] ∧
    "/cards/wtr001" ≠ "/cards/" ++ ToLower plainEnv.lowerTable "WTR001?X" ∧
    "/cards/wtr001" ≠ "/cards/" ++ ToLower plainEnv.lowerTable "WTR001#X" ∧
    plainEnv.lowerTable 'ℂ' = 'ℂ' ∧
    ToLower plainEnv.lowerTable "ℂ" = "ℂ" ∧
    (remoteTwo.GetCard plainEnv "ℂ").sent.map (fun r => r.urlPath) = [some "/cards/ℂ"] := by
  decide

/-- C9, amended: for identifiers `a` and `b` that are equal after lower-casing,
`GetCard a` and `GetCard b` hand the same requests to the HTTP client; each such
request has the method GET and is built from the URL string made of the endpoint,
`/cards/` and the lower-cased identifier, unescaped, and exactly one is issued
when that URL is accepted.  At the default endpoint, when the lower-cased
identifier consists of characters that stand for themselves in a URL path
(letters, digits and `-_.~$&+,/:;=@`), the path of the request URL is `/cards/`
followed by the lower-cased identifier.  Behind `/cards/` the URL string has,
rune by rune, the `unicode.ToLower` image of the identifier: where the identifier
has an ASCII upper-case letter the URL has its lower-case letter, and for an
all-ASCII identifier no ASCII upper-case letter is left. -/
theorem GetCard_requests (env : Env) (c : FabDBClient) (a b : String)
    (h : ToLower env.lowerTable a = ToLower env.lowerTable b) :
    (c.GetCard env a).sent = (c.GetCard env b).sent ∧
    (∀ req ∈ (c.GetCard env a).sent,
      req.Method = "GET" ∧
      req.URL = c.client.apiEndpoint ++ ("/cards/" ++ ToLower env.lowerTable a)) ∧
    (env.urlError (c.client.apiEndpoint ++ ("/cards/" ++ ToLower env.lowerTable a)) = none →
      (c.GetCard env a).sent.length = 1) ∧
    (c.client.apiEndpoint = apiEndpoint →
      (∀ ch ∈ (ToLower env.lowerTable a).data, shouldEscapePath ch = false) →
      ∀ req ∈ (c.GetCard env a).sent,
        urlSplit req.URL =
          some { Scheme := "https", Opaque := "", Authority := "api.fabdb.net",
                 Path := "/cards/" ++ ToLower env.lowerTable a, ForceQuery := false,
                 RawQuery := "", Fragment := "" } ∧
        req.urlPath = some ("/cards/" ++ ToLower env.lowerTable a)) ∧
    (∀ (i : Nat) (ch : Char), a.data[i]? = some ch →
      ("/cards/" ++ ToLower env.lowerTable a).data[7 + i]? =
        some (unicodeToLower env.lowerTable ch)) ∧
    (∀ (i : Nat) (ch : Char), a.data[i]? = some ch → isUpperASCII ch = true →
      ("/cards/" ++ ToLower env.lowerTable a).data[7 + i]? = some (asciiLower ch) ∧
      isUpperASCII (asciiLower ch) = false) ∧
    (a.data.all (fun ch => decide (ch.toNat < 128)) = true →
      ∀ ch ∈ ("/cards/" ++ ToLower env.lowerTable a).data, isUpperASCII ch = false) := by
  have hpos : ∀ (i : Nat) (ch : Char), a.data[i]? = some ch →
      ("/cards/" ++ ToLower env.lowerTable a).data[7 + i]? =
        some (unicodeToLower env.lowerTable ch) := by
    intro i ch hi
    have hpre : ("/cards/" : String).data.length = 7 := by decide
    rw [String.data_append, List.getElem?_append_right (by omega), hpre, ToLower_data]
    simp only [Nat.add_sub_cancel_left, List.getElem?_map, hi, Option.map_some']
  have hurl : ∀ req ∈ (c.GetCard env a).sent,
      req.Method = "GET" ∧
      req.URL = c.client.apiEndpoint ++ ("/cards/" ++ ToLower env.lowerTable a) := by
    intro req hreq
    rw [GetCard_sent] at hreq
    cases hurl : env.urlError (c.client.apiEndpoint ++
        ("/cards/" ++ ToLower env.lowerTable a)) with
    | some e => simp [hurl] at hreq
    | none =>
      simp only [hurl, List.mem_singleton] at hreq
      subst hreq
      exact ⟨rfl, rfl⟩
  refine ⟨?_, hurl, ?_, ?_, hpos, ?_, ?_⟩
  · rw [GetCard_sent, GetCard_sent, h]
  · intro hacc
    rw [GetCard_sent]
    simp [hacc]
  · intro hend hplain req hreq
    have hclean : ∀ ch ∈ (ToLower env.lowerTable a).data, ch ≠ '#' ∧ ch ≠ '?' := by
      intro ch hch
      have hesc := hplain ch hch
      constructor
      · intro heq
        rw [heq] at hesc
        exact absurd hesc (by decide)
      · intro heq
        rw [heq] at hesc
        exact absurd hesc (by decide)
    have hsplit := urlSplit_default (ToLower env.lowerTable a) hclean
    have hrequrl := (hurl req hreq).2
    rw [hend] at hrequrl
    refine ⟨by rw [hrequrl, hsplit], ?_⟩
    unfold Request.urlPath
    rw [hrequrl, hsplit]
    rfl
  · intro i ch hi hup
    refine ⟨?_, asciiLower_not_upper ch hup⟩
    rw [hpos i ch hi]
    unfold isUpperASCII at hup
    simp only [decide_eq_true_eq] at hup
    have h127 : ch.toNat ≤ 127 := by omega
    simp [unicodeToLower, h127]
  · intro hascii ch hch
    rw [String.data_append, List.mem_append] at hch
    rcases hch with hch | hch
    · have hall : ("/cards/" : String).data.all (fun x => !isUpperASCII x) = true := by decide
      have := List.all_eq_true.mp hall ch hch
      simpa using this
    · rw [ToLower_data, List.mem_map] at hch
      obtain ⟨r, hr, hrch⟩ := hch
      have := List.all_eq_true.mp hascii r hr
      simp only [decide_eq_true_eq] at this
      have h127 : r.toNat ≤ 127 := by omega
      simp only [unicodeToLower, h127, if_true] at hrch
      rw [← hrch]
      exact asciiLower_result_not_upper r

/-- C9, amended, at `ABC-123` and `abc-123`: one and the same request, GET with
the path `/cards/abc-123`. -/
theorem GetCard_requests_witness :
    ToLower plainEnv.lowerTable "ABC-123" = ToLower plainEnv.lowerTable "abc-123" ∧
    (remoteTwo.GetCard plainEnv "ABC-123").sent.map (fun r => (r.Method, r.URL)) =
      [("GET", "https://api.fabdb.net/cards/abc-123")] ∧
    (remoteTwo.GetCard plainEnv "ABC-123").sent = (remoteTwo.GetCard plainEnv "abc-123").sent ∧
    (∀ req ∈ (remoteTwo.GetCard plainEnv "ABC-123").sent,
      req.urlPath = some ("/cards/" ++ ToLower plainEnv.lowerTable "ABC-123")) ∧
    "/cards/" ++ ToLower plainEnv.lowerTable "ABC-123" = "/cards/abc-123" :=
  ⟨by decide, by decide,
   (GetCard_requests plainEnv remoteTwo "ABC-123" "abc-123" (by decide)).1,
   fun req hreq =>
     ((GetCard_requests plainEnv remoteTwo "ABC-123" "abc-123" (by decide)).2.2.2.1
        rfl (by decide) req hreq).2,
   by decide⟩

/-- C10: for every failing response with status code `N`: when its Content-Type
does not begin with `application/json`, the error of `getErrorFromResponse` has the
message `HTTP response with status code N does not contain Content-Type:
application/json`, which is not the generic message; when it does, the message is
the generic `HTTP response with status code N`.  In both cases the error has the
status code `N` and `Error()` returns that message. -/
theorem getErrorFromResponse_spec (resp : Response) :
    (HasPrefix (headerGet resp.Header "Content-Type") "application/json" = false →
      (Client.getErrorFromResponse resp).message =
        "HTTP response with status code " ++ fmtInt resp.StatusCode ++
          " does not contain Content-Type: application/json" ∧
      (Client.getErrorFromResponse resp).message ≠
        "HTTP response with status code " ++ fmtInt resp.StatusCode) ∧
    (HasPrefix (headerGet resp.Header "Content-Type") "application/json" = true →
      (Client.getErrorFromResponse resp).message =
        "HTTP response with status code " ++ fmtInt resp.StatusCode) ∧
    (Client.getErrorFromResponse resp).StatusCode = resp.StatusCode ∧
    (Client.getErrorFromResponse resp).Error = (Client.getErrorFromResponse resp).message := by
  have hlen : ∀ t : String, 0 < len ("HTTP response with status code " ++ t) := by
    intro t
    have h1 := len_append "HTTP response with status code " t
    have h2 : len "HTTP response with status code " = 31 := by decide
    omega
  refine ⟨?_, ?_, ?_, ?_⟩
  · intro hp
    unfold Client.getErrorFromResponse
    simp only [hp, Bool.not_false, if_true, true_and]
    intro heq
    have := congrArg String.length heq
    simp only [String.length_append] at this
    have h3 : (" does not contain Content-Type: application/json" : String).length = 48 := by
      decide
    omega
  · intro hp
    unfold Client.getErrorFromResponse
    simp [hp]
  · unfold Client.getErrorFromResponse
    split <;> rfl
  · unfold APIError.Error Client.getErrorFromResponse
    split
    · have := hlen (fmtInt resp.StatusCode ++ " does not contain Content-Type: application/json")
      rw [← String.append_assoc] at this
      simp [this]
    · simp [hlen (fmtInt resp.StatusCode)]

/-- C10 at a response with status 404 and Content-Type `text/html`. -/
theorem getErrorFromResponse_spec_witness :
    HasPrefix (headerGet notFoundHtml.Header "Content-Type") "application/json" = false ∧
    (Client.getErrorFromResponse notFoundHtml).Error =
      "HTTP response with status code 404 does not contain Content-Type: application/json" ∧
    (Client.getErrorFromResponse notFoundHtml).StatusCode = 404 :=
  ⟨by decide,
   ((getErrorFromResponse_spec notFoundHtml).2.2.2).trans
     (((getErrorFromResponse_spec notFoundHtml).1 (by decide)).1.trans (by decide)),
   (getErrorFromResponse_spec notFoundHtml).2.2.1⟩

/-- C11: for a response that comes without a transport error, `checkResponse`
returns an error exactly when the status code is below 200 or above 299, and that
error is an `APIError` with the status code of the response; the response itself
is handed back.  With a transport error `checkResponse` returns an error whatever
the response is. -/
theorem checkResponse_spec (resp : Response) :
    ((Client.checkResponse resp none).2 ≠ none ↔
      (resp.StatusCode < 200 ∨ resp.StatusCode > 299)) ∧
    (∀ e, (Client.checkResponse resp none).2 = some e →
      ∃ a : APIError, e = GoError.api a ∧ a.StatusCode = resp.StatusCode ∧
        a = Client.getErrorFromResponse resp) ∧
    (∀ err : GoError,
      (Client.checkResponse resp (some err)).2 =
        some (GoError.errorf ("Error calling the API endpoint: " ++ err.Error)) ∧
      (Client.checkResponse resp (some err)).2 ≠ none) := by
  refine ⟨?_, ?_, ?_⟩
  · unfold Client.checkResponse
    by_cases h : resp.StatusCode < 200 ∨ resp.StatusCode > 299
    · simp [h]
    · simp only [h, if_false, iff_false]
      simp
  · intro e he
    unfold Client.checkResponse at he
    by_cases h : resp.StatusCode < 200 ∨ resp.StatusCode > 299
    · simp only [h, if_true, Option.some.injEq] at he
      refine ⟨Client.getErrorFromResponse resp, he.symm, ?_, rfl⟩
      unfold Client.getErrorFromResponse
      split <;> rfl
    · simp [h] at he
  · intro err
    unfold Client.checkResponse
    simp

/-- C11 at a response with status 503, at one with status 200, and at a transport
error. -/
theorem checkResponse_spec_witness :
    (Client.checkResponse unavailableJson none).2 =
      some (GoError.api { StatusCode := 503, message := "HTTP response with status code 503" }) ∧
    (Client.checkResponse unavailableJson none).2 ≠ none ∧
    (Client.checkResponse unavailableJson
      (some (GoError.external "dial tcp: i/o timeout"))).2 ≠ none :=
  ⟨by decide,
   (checkResponse_spec unavailableJson).1.mpr (by decide),
   ((checkResponse_spec unavailableJson).2.2 (GoError.external "dial tcp: i/o timeout")).2⟩

/-! ## The allowlist after construction -/

/-- Every sequence of `WithAllowlist` options leaves a permutation of the old
allowlist followed by all the ids of the options. -/
theorem applyOptions_withAllowlist_perm (idss : List (List Int)) :
    ∀ b : Bot, ∃ b1, applyOptions (idss.map WithAllowlist) b = .ok b1 ∧
      b1.allowlist.Perm (b.allowlist ++ idss.flatten) := by
  induction idss with
  | nil => intro b; exact ⟨b, rfl, by simp⟩
  | cons ids idss ih =>
    intro b
    simp only [List.map_cons, applyOptions, WithAllowlist]
    obtain ⟨b1, hb1, hperm⟩ := ih { b with allowlist := Ints (b.allowlist ++ ids) }
    refine ⟨b1, hb1, hperm.trans ?_⟩
    simp only [List.flatten_cons, ← List.append_assoc]
    exact List.Perm.append_right _ (List.perm_insertionSort _ _)

/-- C14: for every bot and every list of ids the option `WithAllowlist ids`
succeeds and leaves an allowlist that is sorted ascending and a permutation of the
old allowlist followed by `ids`, the other fields untouched; and a bot built by
`NewBotWithTelegram` from any sequence of `WithAllowlist` options has an allowlist
that is sorted ascending and a permutation of all the given ids. -/
theorem WithAllowlist_sorted_perm (b : Bot) (ids : List Int) :
    (∃ b1, WithAllowlist ids b = .ok b1 ∧
      b1.allowlist.Sorted (· ≤ ·) ∧ b1.allowlist.Perm (b.allowlist ++ ids) ∧
      (∀ x, x ∈ b1.allowlist ↔ x ∈ b.allowlist ∨ x ∈ ids) ∧
      b1.allowlist.length = b.allowlist.length + ids.length ∧
      b1.revision = b.revision) ∧
    (∀ (botState : Cards) (bot : Telebot) (idss : List (List Int)),
      ∃ b2, NewBotWithTelegram botState bot (idss.map WithAllowlist) = .ok b2 ∧
        b2.allowlist.Sorted (· ≤ ·) ∧ b2.allowlist.Perm idss.flatten) := by
  constructor
  · have hperm : (Ints (b.allowlist ++ ids)).Perm (b.allowlist ++ ids) :=
      List.perm_insertionSort _ _
    refine ⟨{ b with allowlist := Ints (b.allowlist ++ ids) }, rfl,
      List.sorted_insertionSort _ _, hperm, ?_, ?_, rfl⟩
    · intro x
      rw [hperm.mem_iff, List.mem_append]
    · rw [hperm.length_eq, List.length_append]
  · intro botState bot idss
    obtain ⟨b2, hb2, hs⟩ := applyOptions_withAllowlist_sorted idss
      { revision := "", cards := botState, telegram := bot, allowlist := [] } List.sorted_nil
    obtain ⟨b3, hb3, hp⟩ := applyOptions_withAllowlist_perm idss
      { revision := "", cards := botState, telegram := bot, allowlist := [] }
    have h23 : b2 = b3 := by
      rw [hb2] at hb3
      exact Except.ok.inj hb3
    subst h23
    exact ⟨b2, hb2, hs, by simpa using hp⟩

/-- C14 at the options 5, 1, 3 and then 2, 1 on a new bot. -/
theorem WithAllowlist_sorted_perm_witness :
    (∃ b2, NewBotWithTelegram twoCardSource quietTelebot
        ([[5, 1, 3], [2, 1]].map WithAllowlist) = .ok b2 ∧
      b2.allowlist = [1, 1, 2, 3, 5]) ∧
    (∃ b2, NewBotWithTelegram twoCardSource quietTelebot
        ([[5, 1, 3], [2, 1]].map WithAllowlist) = .ok b2 ∧
      b2.allowlist.Sorted (· ≤ ·) ∧ b2.allowlist.Perm [5, 1, 3, 2, 1]) :=
  ⟨⟨_, rfl, by decide⟩,
   (WithAllowlist_sorted_perm openBot []).2 twoCardSource quietTelebot [[5, 1, 3], [2, 1]]⟩

/-! ## Filters of the inline-query middleware -/

/-- How often the inline-query middleware calls the handler, by the three shapes
of its effects. -/
theorem queryMiddleware_handlerCalls (b : Bot) (next : Query → HandlerRun) (q : Query) :
    handlerCalls (b.queryMiddleware next q) =
      if q.From.IsBot = false ∧ 3 < len q.Text ∧
          (b.isOnAllowlist q.From.ID = true ∨ q.Text = "/id") then 1 else 0 := by
  rcases queryMiddleware_cases b next q with
    ⟨h, ht⟩ | ⟨⟨hb, hlen, ha, hx⟩, ht⟩ | ⟨hp, last, hl, ht⟩
  · have hn : ¬ (q.From.IsBot = false ∧ 3 < len q.Text ∧
        (b.isOnAllowlist q.From.ID = true ∨ q.Text = "/id")) := by
      rintro ⟨h1, h2, _⟩
      rcases h with h | h
      · rw [h1] at h; exact absurd h (by decide)
      · omega
    rw [ht, if_neg hn]
    decide
  · have hn : ¬ (q.From.IsBot = false ∧ 3 < len q.Text ∧
        (b.isOnAllowlist q.From.ID = true ∨ q.Text = "/id")) := by
      rintro ⟨_, _, h | h⟩
      · rw [ha] at h; exact absurd h (by decide)
      · exact hx h
    rw [ht, if_neg hn]
    decide
  · rw [ht, if_pos hp]
    rcases hl with ⟨hl, _⟩ | ⟨hl, _⟩ <;> subst hl <;> simp [handlerCalls, List.countP_cons]

/-- Whoever passes `isOnAllowlist` is on the allowlist, or the allowlist is empty;
this direction does not need a sorted allowlist. -/
theorem isOnAllowlist_mem (b : Bot) (q : Int) (h : b.isOnAllowlist q = true) :
    b.allowlist = [] ∨ q ∈ b.allowlist := by
  unfold Bot.isOnAllowlist at h
  by_cases h0 : b.allowlist.length = 0
  · exact Or.inl (List.length_eq_zero.mp h0)
  · simp only [h0, if_false, Bool.and_eq_true, decide_eq_true_eq] at h
    obtain ⟨hlt, heq⟩ := h
    rw [List.getD_eq_getElem b.allowlist 0 hlt] at heq
    right
    rw [← heq]
    exact List.getElem_mem hlt

/-- C15: in `Bot.queryMiddleware` the `/id` bypass never takes effect.  When the
allowlist is not empty and does not hold the sender of an inline query, the
handler is called zero times whatever the text is; the text `/id` has 3 bytes and
is cut off by the length filter; and for a sorted allowlist (as every constructed
bot has it) the handler is called, once, exactly when the sender is no bot, the
text is longer than 3 bytes, and the allowlist is empty or holds the sender. -/
theorem queryMiddleware_bypass_dead (b : Bot) (next : Query → HandlerRun) (q : Query) :
    (b.allowlist ≠ [] → q.From.ID ∉ b.allowlist →
      handlerCalls (b.queryMiddleware next q) = 0) ∧
    len CmdID = 3 ∧
    (q.Text = CmdID → handlerCalls (b.queryMiddleware next q) = 0) ∧
    (handlerCalls (b.queryMiddleware next q) ≠ 1 →
      handlerCalls (b.queryMiddleware next q) = 0) ∧
    (handlerCalls (b.queryMiddleware next q) = 1 ↔
      (q.From.IsBot = false ∧ 3 < len q.Text ∧ b.isOnAllowlist q.From.ID = true)) ∧
    (b.allowlist.Sorted (· ≤ ·) →
      (handlerCalls (b.queryMiddleware next q) = 1 ↔
        (q.From.IsBot = false ∧ 3 < len q.Text ∧
          (b.allowlist = [] ∨ q.From.ID ∈ b.allowlist)))) := by
  have hcalls := queryMiddleware_handlerCalls b next q
  have hid : len "/id" = 3 := by decide
  have hdead : 3 < len q.Text → q.Text ≠ "/id" := by
    intro hlen heq
    rw [heq, hid] at hlen
    omega
  have hiff : handlerCalls (b.queryMiddleware next q) = 1 ↔
      (q.From.IsBot = false ∧ 3 < len q.Text ∧ b.isOnAllowlist q.From.ID = true) := by
    rw [hcalls]
    constructor
    · intro h
      by_cases hp : q.From.IsBot = false ∧ 3 < len q.Text ∧
          (b.isOnAllowlist q.From.ID = true ∨ q.Text = "/id")
      · obtain ⟨h1, h2, h3⟩ := hp
        refine ⟨h1, h2, ?_⟩
        rcases h3 with h3 | h3
        · exact h3
        · exact absurd h3 (hdead h2)
      · rw [if_neg hp] at h
        exact absurd h (by decide)
    · rintro ⟨h1, h2, h3⟩
      rw [if_pos ⟨h1, h2, Or.inl h3⟩]
  refine ⟨?_, hid, ?_, ?_, hiff, ?_⟩
  · intro hne hnot
    rw [hcalls, if_neg]
    rintro ⟨_, hlen, h | h⟩
    · rcases isOnAllowlist_mem b _ h with h | h
      · exact hne h
      · exact hnot h
    · exact hdead hlen h
  · intro heq
    rw [hcalls, if_neg]
    rintro ⟨_, hlen, _⟩
    exact hdead hlen heq
  · intro hne
    rw [hcalls] at hne ⊢
    by_cases hp : q.From.IsBot = false ∧ 3 < len q.Text ∧
        (b.isOnAllowlist q.From.ID = true ∨ q.Text = "/id")
    · rw [if_pos hp] at hne
      exact absurd rfl hne
    · rw [if_neg hp]
  · intro hsorted
    rw [hiff, isOnAllowlist_sorted b q.From.ID hsorted]

/-- C15 at the guarded bot and the stranger: neither the query `rhinar` nor the
query `/id` reaches the handler, and the query `rhinar` of user 3 does. -/
theorem queryMiddleware_bypass_dead_witness :
    guardedBot.allowlist.Sorted (· ≤ ·) ∧ guardedBot.allowlist ≠ [] ∧
    stranger.ID ∉ guardedBot.allowlist ∧
    handlerCalls (guardedBot.queryMiddleware guardedBot.handleOnQuery strangerQuery) = 0 ∧
    handlerCalls (guardedBot.queryMiddleware guardedBot.handleOnQuery strangerIdQuery) = 0 ∧
    handlerCalls (guardedBot.queryMiddleware guardedBot.handleOnQuery
      { strangerQuery with From := { stranger with ID := 3 } }) = 1 :=
  ⟨by decide, by decide, by decide,
   (queryMiddleware_bypass_dead guardedBot guardedBot.handleOnQuery strangerQuery).1
      (by decide) (by decide),
   (queryMiddleware_bypass_dead guardedBot guardedBot.handleOnQuery strangerIdQuery).2.2.1 rfl,
   ((queryMiddleware_bypass_dead guardedBot guardedBot.handleOnQuery
      { strangerQuery with From := { stranger with ID := 3 } }).2.2.2.2.2 (by decide)).mpr
      ⟨rfl, by decide, Or.inr (by decide)⟩⟩

/-- An ASCII character takes one byte in UTF-8. -/
theorem utf8Size_ascii (c : Char) (h : c.toNat < 128) : c.utf8Size = 1 := by
  unfold Char.utf8Size
  have hle : c.val ≤ 127 := by
    rw [UInt32.le_def]
    show c.val.toNat ≤ 127
    have hval : c.toNat = c.val.toNat := rfl
    omega
  simp [hle]

/-- Go's `len` of an ASCII string is its number of characters. -/
theorem len_ascii (s : String) (h : s.data.all (fun c => decide (c.toNat < 128)) = true) :
    len s = s.length := by
  have key : ∀ l : List Char, l.all (fun c => decide (c.toNat < 128)) = true →
      String.utf8Len l = l.length := by
    intro l
    induction l with
    | nil => intro _; rfl
    | cons c cs ih =>
      intro hl
      simp only [List.all_cons, Bool.and_eq_true, decide_eq_true_eq] at hl
      simp only [String.utf8Len_cons, List.length_cons, ih hl.2, utf8Size_ascii c hl.1]
  unfold len
  exact key s.data h

/-- C12, as stated, fails: a query of three characters, `äöü`, from a sender who
is no bot is not cut off (its text has six bytes); the handler is called and the
outgoing counter moves. -/
theorem three_characters_not_cut_off :
    threeUmlauts.From.IsBot = false ∧ threeUmlauts.Text.length = 3 ∧
    len threeUmlauts.Text = 6 ∧
    handlerCalls (openBot.queryMiddleware openBot.handleOnQuery threeUmlauts) = 1 ∧
    outgoingIncs (openBot.queryMiddleware openBot.handleOnQuery threeUmlauts) = 1 := by
  decide

/-- C12, amended: for every inline query whose sender is a bot, or whose text has
at most 3 bytes (in particular an ASCII text of at most 3 characters), the
callback of `Bot.queryMiddleware` only moves the incoming-inline counter: the
handler is not called and the outgoing counter does not move. -/
theorem queryMiddleware_short_circuit (b : Bot) (next : Query → HandlerRun) (q : Query)
    (h : q.From.IsBot = true ∨ len q.Text ≤ 3 ∨
      (q.Text.length ≤ 3 ∧ q.Text.data.all (fun c => decide (c.toNat < 128)) = true)) :
    b.queryMiddleware next q = [Effect.IncTelegramEventsIncoming "inline"] ∧
    handlerCalls (b.queryMiddleware next q) = 0 ∧
    outgoingIncs (b.queryMiddleware next q) = 0 ∧
    incomingIncs (b.queryMiddleware next q) = 1 := by
  have hcut : q.From.IsBot = true ∨ len q.Text ≤ 3 := by
    rcases h with h | h | ⟨h1, h2⟩
    · exact Or.inl h
    · exact Or.inr h
    · right
      rw [len_ascii q.Text h2]
      exact h1
  have htrace : b.queryMiddleware next q = [Effect.IncTelegramEventsIncoming "inline"] := by
    rcases queryMiddleware_cases b next q with ⟨_, ht⟩ | ⟨⟨hb, hlen, _, _⟩, _⟩ | ⟨⟨hb, hlen, _⟩, _⟩
    · exact ht
    · rcases hcut with hc | hc
      · rw [hb] at hc; exact absurd hc (by decide)
      · omega
    · rcases hcut with hc | hc
      · rw [hb] at hc; exact absurd hc (by decide)
      · omega
  rw [htrace]
  exact ⟨rfl, by decide, by decide, by decide⟩

/-- C12, amended, at the query `/id` (three bytes) of the stranger on the open
bot. -/
theorem queryMiddleware_short_circuit_witness :
    len strangerIdQuery.Text ≤ 3 ∧
    openBot.queryMiddleware openBot.handleOnQuery strangerIdQuery =
      [Effect.IncTelegramEventsIncoming "inline"] ∧
    handlerCalls (openBot.queryMiddleware openBot.handleOnQuery strangerIdQuery) = 0 :=
  ⟨by decide,
   (queryMiddleware_short_circuit openBot openBot.handleOnQuery strangerIdQuery
      (Or.inr (Or.inl (by decide)))).1,
   (queryMiddleware_short_circuit openBot openBot.handleOnQuery strangerIdQuery
      (Or.inr (Or.inl (by decide)))).2.1⟩

/-! ## The command name -/

/-- The first piece of `strings.Split` on a separator is the text before the first
separator. -/
theorem splitChars_head (sep : Char) (l : List Char) :
    ∃ rest, splitChars sep l = l.takeWhile (fun c => c != sep) :: rest := by
  induction l with
  | nil => exact ⟨[], rfl⟩
  | cons c cs ih =>
    obtain ⟨rest, hrest⟩ := ih
    by_cases hc : c = sep
    · exact ⟨splitChars sep cs, by simp [splitChars, hc]⟩
    · exact ⟨rest, by simp [splitChars, hc, hrest]⟩

/-- The first element of `strings.Split(s, " ")`. -/
theorem SplitSpace_head (s : String) :
    (SplitSpace s).headD "" = String.mk (s.data.takeWhile (fun c => c != ' ')) := by
  obtain ⟨rest, hrest⟩ := splitChars_head ' ' s.data
  unfold SplitSpace
  rw [hrest]
  rfl

/-- Two predicates that agree on the elements of a list take the same prefix. -/
theorem takeWhile_congr_mem (p q : Char → Bool) (l : List Char)
    (h : ∀ c ∈ l, p c = q c) : l.takeWhile p = l.takeWhile q := by
  induction l with
  | nil => rfl
  | cons c cs ih =>
    have hc := h c (List.mem_cons_self c cs)
    have hcs := ih (fun x hx => h x (List.mem_cons_of_mem c hx))
    simp only [List.takeWhile_cons, hc, hcs]

/-- C13, as stated, fails: the text `/start`, a tab, `now` passes the filters of
the open bot, its first whitespace-delimited token is `/start`, and the name
handed to the command counter is the whole text. -/
theorem command_name_keeps_tab :
    strangerStartTab.IsService = false ∧ strangerStartTab.Sender.IsBot = false ∧
    openBot.isOnAllowlist strangerStartTab.Sender.ID = true ∧
    firstWhitespaceToken strangerStartTab.Text = "/start" ∧
    commandNames (openBot.middleware openBot.handleStart strangerStartTab) =
      ["/start\tnow"] := by
  decide

/-- C13, amended: for every message that passes the filters of `Bot.middleware`
the command counter is called once, with the part of the text before its first
space character (the whole text when it has no space); this is the first
whitespace-delimited token whenever the text does not start with a space and
has no whitespace other than spaces. -/
theorem command_name_is_first_space_piece (b : Bot) (next : Message → HandlerRun)
    (m : Message) (hs : m.IsService = false) (hb : m.Sender.IsBot = false)
    (ha : b.isOnAllowlist m.Sender.ID = true ∨ m.Text = "/id") :
    commandNames (b.middleware next m) =
      [String.mk (m.Text.data.takeWhile (fun c => c != ' '))] ∧
    ((∀ c ∈ m.Text.data, c.isWhitespace = true → c = ' ') →
      m.Text.data.head? ≠ some ' ' →
      commandNames (b.middleware next m) = [firstWhitespaceToken m.Text]) := by
  have hnames : commandNames (b.middleware next m) =
      [String.mk (m.Text.data.takeWhile (fun c => c != ' '))] := by
    rcases middleware_cases b next m with ⟨h, _⟩ | ⟨⟨_, _, hna, hx⟩, _⟩ | ⟨_, last, hl, ht⟩
    · rcases h with h | h
      · rw [hs] at h; exact absurd h (by decide)
      · rw [hb] at h; exact absurd h (by decide)
    · rcases ha with h | h
      · rw [hna] at h; exact absurd h (by decide)
      · exact absurd h hx
    · rw [ht, SplitSpace_head]
      rcases hl with ⟨hl, _⟩ | ⟨hl, _⟩ <;> subst hl <;> simp [commandNames]
  refine ⟨hnames, ?_⟩
  intro hws hhead
  rw [hnames]
  have hagree : ∀ c ∈ m.Text.data, (c != ' ') = !c.isWhitespace := by
    intro c hc
    cases hw : c.isWhitespace with
    | true =>
      have := hws c hc hw
      subst this
      rfl
    | false =>
      have hne : c ≠ ' ' := by
        intro heq
        rw [heq] at hw
        exact absurd hw (by decide)
      simp [hne]
  have hdrop : m.Text.data.dropWhile Char.isWhitespace = m.Text.data := by
    cases hdata : m.Text.data with
    | nil => rfl
    | cons c cs =>
      have hne : c ≠ ' ' := by
        intro heq
        rw [hdata, heq] at hhead
        exact hhead rfl
      have hw : c.isWhitespace = false := by
        cases hw : c.isWhitespace with
        | false => rfl
        | true => exact absurd (hws c (by rw [hdata]; exact List.mem_cons_self c cs) hw) hne
      simp [List.dropWhile_cons, hw]
  unfold firstWhitespaceToken
  rw [hdrop, takeWhile_congr_mem _ _ _ hagree]

/-- C13, amended, at `/id now` of a sender on the allowlist of the guarded bot:
the command counter gets `/id`. -/
theorem command_name_is_first_space_piece_witness :
    guardedBot.isOnAllowlist 3 = true ∧
    commandNames (guardedBot.middleware guardedBot.handleID
      { strangerIdWithArgument with Sender := { stranger with ID := 3 } }) = ["/id"] ∧
    commandNames (guardedBot.middleware guardedBot.handleID
      { strangerIdWithArgument with Sender := { stranger with ID := 3 } }) =
        [firstWhitespaceToken "/id now"] :=
  ⟨by decide, by decide,
   (command_name_is_first_space_piece guardedBot guardedBot.handleID
      { strangerIdWithArgument with Sender := { stranger with ID := 3 } }
      rfl rfl (Or.inl (by decide))).2 (by decide) (by decide)⟩

end Fabtcg
